import Mathlib

/-!
Verification development for the Morphorama evolution orchestration engine.

The two orchestrator variants (`evolution.processor.ts`, guided mode, and the
"telephone game" processor, fixed-instruction mode) are embedded as one
interpreter parameterised by `Mode`; each branch follows its own source file.
External collaborators (LLM prompt generator, image provider, MinIO storage,
Postgres repositories) are modelled by an `Env` oracle that decides, per
iteration and per attempt, whether each external call succeeds and what data
it returns.  Image bytes are abstracted as `Nat` identifiers; wall-clock time,
byte sizes and pixel dimensions are not modelled (no claim depends on them),
and `duration_seconds` is tracked only as the Boolean `durationWritten`
(whether the column was assigned).  The interpreter emits a trace of events
(provider calls with their arguments, durable writes, sleeps, status writes)
so that ordering and call-argument properties can be stated.
-/

namespace Morphorama

/-- Lifecycle status of an evolution run (schema: CHECK status IN
    queued/processing/completed/failed). -/
inductive Status where
  | queued
  | processing
  | completed
  | failed
  deriving Repr, DecidableEq

/-- Status field of the `EvolutionJobResult` returned by `processEvolution`
    (a two-value union in the source, distinct from the run status). -/
inductive ResultStatus where
  | completed
  | failed
  deriving Repr, DecidableEq

/-- Row of the `evolutions` table, restricted to the columns the orchestrator
    reads or writes.  `started_set`, `completed_set`, `durationWritten` model
    whether the corresponding nullable timestamp/duration columns have been
    assigned. -/
structure RunRow where
  current_iteration : Nat
  total_iterations : Nat
  status : Status
  error_message : Option String
  retry_count : Nat
  started_set : Bool
  completed_set : Bool
  durationWritten : Bool
  deriving Repr, DecidableEq

/-- Row of the `evolution_frames` table, restricted to the columns the claims
    mention.  `image` is the abstract identifier of the stored bytes. -/
structure Frame where
  iteration_number : Nat
  file_path : String
  prompt_used : Option String
  image : Nat
  deriving Repr, DecidableEq

/-- EvolutionRepository.updateStatus: sets the status unconditionally; sets
    started_at when moving to processing; sets completed_at and
    duration_seconds when moving to a terminal status. -/
def updateStatus (r : RunRow) (s : Status) : RunRow :=
  let r1 := { r with status := s }
  let r2 := if s = Status.processing then { r1 with started_set := true } else r1
  if s = Status.completed ∨ s = Status.failed then
    { r2 with completed_set := true, durationWritten := true }
  else r2

/-- EvolutionRepository.updateProgress: sets current_iteration only. -/
def updateProgress (r : RunRow) (i : Nat) : RunRow :=
  { r with current_iteration := i }

/-- EvolutionRepository.markComplete: status completed, completed_at and
    duration_seconds assigned. -/
def markComplete (r : RunRow) : RunRow :=
  { r with status := Status.completed, completed_set := true, durationWritten := true }

/-- EvolutionRepository.markFailed: status failed, error_message, completed_at,
    retry_count incremented.  The UPDATE does not assign duration_seconds. -/
def markFailed (r : RunRow) (msg : String) : RunRow :=
  { r with status := Status.failed, error_message := some msg,
           completed_set := true, retry_count := r.retry_count + 1 }

/-- JavaScript `s || null` on a string: the empty string is falsy.  Used by
    EvolutionFrameRepository.create for the prompt_used column. -/
def jsOrNull (s : String) : Option String :=
  if s = "" then none else some s

/-- JavaScript `iteration.toString().padStart(3, ZERO)`. -/
def padStart3 (s : String) : String :=
  if s.length ≥ 3 then s
  else String.mk (List.replicate (3 - s.length) '0') ++ s

/-- Object path produced by storageService.uploadEvolutionFrame: bucket
    `evolutions`, key `{evolutionId}/frame-{iteration zero-padded}.png`. -/
def framePath (eid : String) (i : Nat) : String :=
  "evolutions/" ++ eid ++ "/frame-" ++ padStart3 (toString i) ++ ".png"

/-- The constant instruction of the fixed-instruction ("telephone game")
    processor. -/
def STATIC_PROMPT : String :=
  "Recreate this image exactly as it appears, maintaining all details, colors, composition, and style"

/-- Error message raised by Postgres for a violation of
    UNIQUE(evolution_id, iteration_number) on evolution_frames. -/
def dupKeyMsg : String :=
  "duplicate key value violates unique constraint"

/-- Observable events of one orchestrator execution, in program order. -/
inductive Event where
  | statusWrite (s : Status)
  | iterStart (i : Nat)
  | llmCall (image : Nat) (iteration : Nat) (prevPrompt : Option String)
  | imageCall (prompt : String) (sourceImage : Option Nat) (aspectRatio : String)
  | frameUploaded (i : Nat)
  | frameCreated (i : Nat)
  | progressAdvanced (i : Nat)
  | jobProgress (i : Nat) (total : Nat)
  | retryWait (i : Nat) (attempt : Nat) (delayMs : Nat)
  | interWait (delayMs : Nat)
  deriving Repr, DecidableEq

/-- Oracle for the external world.  Each `...Fail` field decides, per
    (iteration, attempt) — attempt 0 is the first try, 1..3 the retries —
    whether that external call throws, and with which message.
    `jobProgressFail` is indexed by iteration only: job.updateProgress is
    called only on the first attempt.  `llmGen` and `imageGen` give the
    values returned by successful provider calls. -/
structure Env where
  photoExists : Bool
  downloadFail : Option String
  sourcePhoto : Nat
  llmFail : Nat → Nat → Option String
  imageFail : Nat → Nat → Option String
  uploadFail : Nat → Nat → Option String
  createFail : Nat → Nat → Option String
  progressFail : Nat → Nat → Option String
  jobProgressFail : Nat → Option String
  llmGen : Nat → Nat → Option String → String
  imageGen : String → Option Nat → Nat

/-- Orchestration variant: part_009 (guided, per-iteration LLM prompts) or
    part_010 (fixed instruction, img2img with the previous frame). -/
inductive Mode where
  | guided
  | fixed
  deriving Repr, DecidableEq

/-- Local state of the evolution loop: persisted frames, the run row,
    and the two mutable locals previousFrameBuffer / previousPrompt. -/
structure LState where
  frames : List Frame
  row : RunRow
  prevImage : Nat
  prevPrompt : Option String
  deriving Repr, DecidableEq

/-- Terminal outcome of one `processEvolution` call: completed, failed while
    processing iteration `k` (retries exhausted there), or failed before the
    loop started (photo fetch / download). -/
inductive Outcome where
  | completed
  | failedAt (k : Nat) (msg : String)
  | failedSetup (msg : String)
  deriving Repr, DecidableEq

/-- Steps B-F of one attempt at iteration `i` (attempt index `a`): call the
    image provider with `(prompt, source, aspect ratio 1:1)`, upload the bytes
    to the frame store, insert the frame row (subject to the unique
    constraint), then advance current_iteration.  Returns the events emitted,
    the new state, and `some e` when the attempt threw with message `e`. -/
def persistFrame (env : Env) (eid : String) (i a : Nat) (prompt : String)
    (source : Option Nat) (ls : LState) : List Event × LState × Option String :=
  let ev1 := [Event.imageCall prompt source "1:1"]
  match env.imageFail i a with
  | some e => (ev1, ls, some e)
  | none =>
    let img := env.imageGen prompt source
    match env.uploadFail i a with
    | some e => (ev1, ls, some e)
    | none =>
      let ev2 := ev1 ++ [Event.frameUploaded i]
      match env.createFail i a with
      | some e => (ev2, ls, some e)
      | none =>
        if ls.frames.any (fun g => g.iteration_number == i) then
          (ev2, ls, some dupKeyMsg)
        else
          let f : Frame := { iteration_number := i, file_path := framePath eid i,
                             prompt_used := jsOrNull prompt, image := img }
          let ls2 := { ls with frames := ls.frames ++ [f] }
          let ev3 := ev2 ++ [Event.frameCreated i]
          match env.progressFail i a with
          | some e => (ev3, ls2, some e)
          | none =>
            let ls3 := { ls2 with row := updateProgress ls2.row i }
            (ev3 ++ [Event.progressAdvanced i], ls3, none)

/-- Tail of the first attempt (steps G-H and the inter-iteration delay):
    report job progress, adopt the generated bytes as previousFrameBuffer,
    and sleep 1s unless this was the final iteration. -/
def finishFirst (env : Env) (total i : Nat) (prompt : String) (source : Option Nat)
    (ev : List Event) (ls : LState) (r : Option String) :
    List Event × LState × Option String :=
  match r with
  | some e => (ev, ls, some e)
  | none =>
    match env.jobProgressFail i with
    | some e => (ev, ls, some e)
    | none =>
      let ls2 := { ls with prevImage := env.imageGen prompt source }
      (ev ++ [Event.jobProgress i total]
          ++ (if i < total then [Event.interWait 1000] else []), ls2, none)

/-- First attempt at iteration `i`.  Guided mode derives a prompt from the
    current image and — as in the source — reassigns previousPrompt as soon
    as derivation succeeds, before the image call; the image call passes no
    img2img source (the sourceImage argument is commented out in the source).
    Fixed mode uses the static instruction and passes the current image as
    the img2img source. -/
def firstAttempt (mode : Mode) (env : Env) (eid : String) (total i : Nat)
    (ls : LState) : List Event × LState × Option String :=
  match mode with
  | Mode.guided =>
    let ev0 := [Event.llmCall ls.prevImage i ls.prevPrompt]
    match env.llmFail i 0 with
    | some e => (ev0, ls, some e)
    | none =>
      let prompt := env.llmGen ls.prevImage i ls.prevPrompt
      let ls1 := { ls with prevPrompt := some prompt }
      let (ev1, ls2, r) := persistFrame env eid i 0 prompt none ls1
      let (ev2, ls3, r2) := finishFirst env total i prompt none ev1 ls2 r
      (ev0 ++ ev2, ls3, r2)
  | Mode.fixed =>
    let (ev1, ls2, r) := persistFrame env eid i 0 STATIC_PROMPT (some ls.prevImage) ls
    finishFirst env total i STATIC_PROMPT (some ls.prevImage) ev1 ls2 r

/-- Retry attempt `a` (1-based) at iteration `i`: sleep `2000 * a` ms, then
    redo the steps.  In both modes previousFrameBuffer — and in guided mode
    previousPrompt — are adopted only after the progress update succeeds;
    there is no job-progress call and no inter-iteration delay here. -/
def retryAttempt (mode : Mode) (env : Env) (eid : String) (i a : Nat)
    (ls : LState) : List Event × LState × Option String :=
  let ev0 := [Event.retryWait i a (2000 * a)]
  match mode with
  | Mode.guided =>
    let ev1 := ev0 ++ [Event.llmCall ls.prevImage i ls.prevPrompt]
    match env.llmFail i a with
    | some e => (ev1, ls, some e)
    | none =>
      let prompt := env.llmGen ls.prevImage i ls.prevPrompt
      let (ev2, ls2, r) := persistFrame env eid i a prompt none ls
      match r with
      | some e => (ev1 ++ ev2, ls2, some e)
      | none =>
        (ev1 ++ ev2,
         { ls2 with prevImage := env.imageGen prompt none, prevPrompt := some prompt },
         none)
  | Mode.fixed =>
    let (ev2, ls2, r) := persistFrame env eid i a STATIC_PROMPT (some ls.prevImage) ls
    match r with
    | some e => (ev0 ++ ev2, ls2, some e)
    | none =>
      (ev0 ++ ev2,
       { ls2 with prevImage := env.imageGen STATIC_PROMPT (some ls.prevImage) }, none)

/-- The retry while-loop with maxRetries = 3: attempts 1, 2, 3 in order,
    stopping at the first success; if attempt 3 also fails with `e`, the
    iteration throws the wrapped message. -/
def retryLoop (mode : Mode) (env : Env) (eid : String) (i : Nat) (ls : LState) :
    List Event × LState × Option String :=
  let (ev1, ls1, r1) := retryAttempt mode env eid i 1 ls
  match r1 with
  | none => (ev1, ls1, none)
  | some _ =>
    let (ev2, ls2, r2) := retryAttempt mode env eid i 2 ls1
    match r2 with
    | none => (ev1 ++ ev2, ls2, none)
    | some _ =>
      let (ev3, ls3, r3) := retryAttempt mode env eid i 3 ls2
      match r3 with
      | none => (ev1 ++ ev2 ++ ev3, ls3, none)
      | some e3 => (ev1 ++ ev2 ++ ev3, ls3, some ("Failed after 3 retries: " ++ e3))

/-- One iteration of the evolution loop: the first attempt, and on failure
    the retry loop. -/
def runIteration (mode : Mode) (env : Env) (eid : String) (total i : Nat)
    (ls : LState) : List Event × LState × Option String :=
  let (ev, ls1, r) := firstAttempt mode env eid total i ls
  match r with
  | none => (Event.iterStart i :: ev, ls1, none)
  | some _ =>
    let (ev2, ls2, r2) := retryLoop mode env eid i ls1
    (Event.iterStart i :: (ev ++ ev2), ls2, r2)

/-- The for-loop over iterations `i, i+1, ...` with `rem` iterations left to
    run; `some (k, e)` reports the iteration whose retries were exhausted. -/
def runLoop (mode : Mode) (env : Env) (eid : String) (total : Nat) :
    Nat → Nat → LState → List Event × LState × Option (Nat × String)
  | _, 0, ls => ([], ls, none)
  | i, rem + 1, ls =>
    match runIteration mode env eid total i ls with
    | (ev, ls1, none) =>
      let (ev2, ls2, r) := runLoop mode env eid total (i + 1) rem ls1
      (ev ++ ev2, ls2, r)
    | (ev, ls1, some e) => (ev, ls1, some (i, e))

/-- Result value returned by processEvolution (wall-clock duration is not
    modelled and reported as 0). -/
structure EvolutionJobResult where
  framesGenerated : Nat
  totalDurationSeconds : Nat
  status : ResultStatus
  deriving Repr, DecidableEq

/-- Full observable outcome of one processEvolution call. -/
structure Final where
  row : RunRow
  frames : List Frame
  trace : List Event
  result : EvolutionJobResult
  outcome : Outcome
  deriving Repr, DecidableEq

/-- The processEvolution entry point (both processor files share this shape):
    fetch the photo, download its bytes, set the run to processing, run the
    iteration loop, and mark the run completed or failed.  Any throw before
    the processing update — photo missing, download failure — reaches the
    same catch block and calls markFailed directly from the queued state.
    The run row itself is a given (the evolution-not-found throw would make
    every ledger update a no-op and is not modelled). -/
def processEvolution (mode : Mode) (env : Env) (eid pid : String)
    (run : RunRow) : Final :=
  match env.photoExists with
  | false =>
    let msg := "Source photo " ++ pid ++ " not found"
    { row := markFailed run msg, frames := [],
      trace := [Event.statusWrite Status.failed],
      result := { framesGenerated := 0, totalDurationSeconds := 0,
                  status := ResultStatus.failed },
      outcome := Outcome.failedSetup msg }
  | true =>
    match env.downloadFail with
    | some e =>
      let msg := "Failed to download file: " ++ e
      { row := markFailed run msg, frames := [],
        trace := [Event.statusWrite Status.failed],
        result := { framesGenerated := 0, totalDurationSeconds := 0,
                    status := ResultStatus.failed },
        outcome := Outcome.failedSetup msg }
    | none =>
      let row1 := updateStatus run Status.processing
      let ls0 : LState := { frames := [], row := row1,
                            prevImage := env.sourcePhoto, prevPrompt := none }
      let (ev, ls, r) := runLoop mode env eid run.total_iterations 1
                           run.total_iterations ls0
      match r with
      | none =>
        { row := markComplete ls.row, frames := ls.frames,
          trace := Event.statusWrite Status.processing :: ev
                     ++ [Event.statusWrite Status.completed],
          result := { framesGenerated := run.total_iterations,
                      totalDurationSeconds := 0, status := ResultStatus.completed },
          outcome := Outcome.completed }
      | some (k, e) =>
        { row := markFailed ls.row e, frames := ls.frames,
          trace := Event.statusWrite Status.processing :: ev
                     ++ [Event.statusWrite Status.failed],
          result := { framesGenerated := 0, totalDurationSeconds := 0,
                      status := ResultStatus.failed },
          outcome := Outcome.failedAt k e }

/-- A frame for iteration `i` is present (the unique-constraint test used by
    the frame insert). -/
def hasFrame (fs : List Frame) (i : Nat) : Bool :=
  fs.any (fun g => g.iteration_number == i)

/-- The frame row inserted for iteration `i` of a run, given the prompt and
    img2img source of the generating call. -/
def mkFrame (env : Env) (eid : String) (i : Nat) (p : String) (s : Option Nat) : Frame :=
  { iteration_number := i, file_path := framePath eid i,
    prompt_used := jsOrNull p, image := env.imageGen p s }

theorem persistFrame_spec (env : Env) (eid : String) (i a : Nat) (p : String)
    (s : Option Nat) (ls : LState) (ev : List Event) (ls' : LState) (r : Option String)
    (h : persistFrame env eid i a p s ls = (ev, ls', r)) :
    ls'.prevImage = ls.prevImage ∧ ls'.prevPrompt = ls.prevPrompt ∧
    (r = none →
      hasFrame ls.frames i = false ∧
      ls'.frames = ls.frames ++ [mkFrame env eid i p s] ∧
      ls'.row = updateProgress ls.row i) ∧
    (r ≠ none →
      ls'.row = ls.row ∧
      (ls'.frames = ls.frames ∨
        (hasFrame ls.frames i = false ∧
         ls'.frames = ls.frames ++ [mkFrame env eid i p s]))) := by
  unfold persistFrame at h
  cases h1 : env.imageFail i a <;> rw [h1] at h
  case some e =>
    simp only [Prod.mk.injEq] at h
    obtain ⟨-, h2, h3⟩ := h
    subst h2; subst h3
    simp
  case none =>
  cases h2 : env.uploadFail i a <;> rw [h2] at h
  case some e =>
    simp only [Prod.mk.injEq] at h
    obtain ⟨-, h3, h4⟩ := h
    subst h3; subst h4
    simp
  case none =>
  cases h3 : env.createFail i a <;> rw [h3] at h
  case some e =>
    simp only [Prod.mk.injEq] at h
    obtain ⟨-, h4, h5⟩ := h
    subst h4; subst h5
    simp
  case none =>
  cases h4 : (ls.frames.any fun g => g.iteration_number == i)
  case true =>
    simp only [h4, if_true, Prod.mk.injEq] at h
    obtain ⟨-, h5, h6⟩ := h
    subst h5; subst h6
    simp
  case false =>
    cases h5 : env.progressFail i a <;>
      simp only [h4, h5, if_false, Bool.false_eq_true, Prod.mk.injEq] at h
    case some e =>
      obtain ⟨-, h6, h7⟩ := h
      subst h6; subst h7
      simp [hasFrame, mkFrame, h4]
    case none =>
      obtain ⟨-, h6, h7⟩ := h
      subst h6; subst h7
      simp [hasFrame, mkFrame, h4]

/-- Iteration numbers of a frame list, in insertion order. -/
def framesIters (fs : List Frame) : List Nat :=
  fs.map (fun f => f.iteration_number)

/-- Environment in which every external call succeeds. -/
def NoFailures (env : Env) : Prop :=
  env.photoExists = true ∧ env.downloadFail = none ∧
  (∀ i a, env.llmFail i a = none) ∧ (∀ i a, env.imageFail i a = none) ∧
  (∀ i a, env.uploadFail i a = none) ∧ (∀ i a, env.createFail i a = none) ∧
  (∀ i a, env.progressFail i a = none) ∧ (∀ i, env.jobProgressFail i = none)

/-- Checks that every progress advance to `i` is preceded (in the same trace,
    given iterations already uploaded/inserted in `up`/`cr`) by a frame-store
    upload of `i` and a frame-row insert of `i`. -/
def persistOrdered : List Nat → List Nat → List Event → Bool
  | _, _, [] => true
  | up, cr, Event.frameUploaded i :: t => persistOrdered (i :: up) cr t
  | up, cr, Event.frameCreated i :: t => persistOrdered up (i :: cr) t
  | up, cr, Event.progressAdvanced i :: t =>
      (up.contains i && cr.contains i) && persistOrdered up cr t
  | up, cr, _ :: t => persistOrdered up cr t

/-- Checks that every retry wait is for attempt 1..3 with backoff delay
    2000 ms times the attempt number. -/
def retryWaitsOk : List Event → Bool
  | [] => true
  | Event.retryWait _ a d :: t =>
      decide (1 ≤ a ∧ a ≤ 3 ∧ d = 2000 * a) && retryWaitsOk t
  | _ :: t => retryWaitsOk t

/-- Number of retry waits performed for iteration `i`. -/
def countRetryWait (i : Nat) : List Event → Nat
  | [] => 0
  | Event.retryWait j _ _ :: t => (if j = i then 1 else 0) + countRetryWait i t
  | _ :: t => countRetryWait i t

/-- Iterations started, in order. -/
def iterStarts : List Event → List Nat
  | [] => []
  | Event.iterStart i :: t => i :: iterStarts t
  | _ :: t => iterStarts t

/-- Status values written to the run ledger, in order. -/
def statusWrites : List Event → List Status
  | [] => []
  | Event.statusWrite s :: t => s :: statusWrites t
  | _ :: t => statusWrites t

/-- Number of prompt-derivation calls made. -/
def llmCallCount : List Event → Nat
  | [] => 0
  | Event.llmCall _ _ _ :: t => 1 + llmCallCount t
  | _ :: t => llmCallCount t

/-- Checks that every image-provider call uses aspect ratio 1:1. -/
def imageCallsAspectOk : List Event → Bool
  | [] => true
  | Event.imageCall _ _ ar :: t => (ar == "1:1") && imageCallsAspectOk t
  | _ :: t => imageCallsAspectOk t

/-- The img2img source arguments of the image-provider calls, in order. -/
def imageCallSources : List Event → List (Option Nat)
  | [] => []
  | Event.imageCall _ s _ :: t => s :: imageCallSources t
  | _ :: t => imageCallSources t

/-- The instruction arguments of the image-provider calls, in order. -/
def imageCallPrompts : List Event → List String
  | [] => []
  | Event.imageCall p _ _ :: t => p :: imageCallPrompts t
  | _ :: t => imageCallPrompts t

/-- Expected img2img sources of a failure-free fixed-mode run of `rem`
    iterations whose current image is `x`: each call consumes the previous
    call's output, starting from `x`. -/
def fixedSources (env : Env) : Nat → Nat → List (Option Nat)
  | _, 0 => []
  | x, rem + 1 =>
      some x :: fixedSources env (env.imageGen STATIC_PROMPT (some x)) rem

/-- One frame append-step at iteration `i`: the frame list either is unchanged
    or gains exactly one frame for `i`, which requires that no frame for `i`
    existed (the unique constraint).  In fixed mode any inserted frame records
    the static instruction. -/
def FramesStep (mode : Mode) (i : Nat) (fs fs' : List Frame) : Prop :=
  fs' = fs ∨
    (hasFrame fs i = false ∧ ∃ f, f.iteration_number = i ∧
      (mode = Mode.fixed → f.prompt_used = some STATIC_PROMPT) ∧ fs' = fs ++ [f])

/-- Environment in which every external call succeeds (concrete witness
    instance). -/
def envOk : Env :=
  { photoExists := true, downloadFail := none, sourcePhoto := 7,
    llmFail := fun _ _ => none, imageFail := fun _ _ => none,
    uploadFail := fun _ _ => none, createFail := fun _ _ => none,
    progressFail := fun _ _ => none, jobProgressFail := fun _ => none,
    llmGen := fun _ i _ => "prompt " ++ toString i,
    imageGen := fun _ s => match s with | some x => x + 1 | none => 100 }

/-- A freshly created run with one iteration (schema defaults: queued,
    counter 0, no error, retry_count 0, all nullable columns unset). -/
def run1 : RunRow :=
  { current_iteration := 0, total_iterations := 1, status := Status.queued,
    error_message := none, retry_count := 0, started_set := false,
    completed_set := false, durationWritten := false }

/-- A freshly created run with `n` total iterations. -/
def runN (n : Nat) : RunRow :=
  { run1 with total_iterations := n }

/-- Environment whose only failure is the run-ledger progress update on
    iteration 1's first attempt. -/
def envProgressFail : Env :=
  { envOk with progressFail := fun i a => if i = 1 ∧ a = 0 then some "db down" else none }

/-- Environment in which the source photo row does not exist. -/
def envNoPhoto : Env :=
  { envOk with photoExists := false }

/-- Environment whose only failure is the image-provider call on iteration 1's
    first attempt; the prompt generator answers P1 on a cold start and extends
    the previous instruction otherwise. -/
def envImageFailOnce : Env :=
  { envOk with
    imageFail := fun i a => if i = 1 ∧ a = 0 then some "img down" else none,
    llmGen := fun _ _ p => match p with | none => "P1" | some q => q ++ "+" }

/-- Iterations whose frame-store upload events occur in the trace, pushed onto
    an accumulator (the traversal order used by persistOrdered). -/
def pushUps : List Event → List Nat → List Nat
  | [], up => up
  | Event.frameUploaded i :: t, up => pushUps t (i :: up)
  | _ :: t, up => pushUps t up

/-- Iterations whose frame-row insert events occur in the trace, pushed onto
    an accumulator. -/
def pushCrs : List Event → List Nat → List Nat
  | [], cr => cr
  | Event.frameCreated i :: t, cr => pushCrs t (i :: cr)
  | _ :: t, cr => pushCrs t cr

/-- Well-formedness of an event chunk emitted while processing iteration `i`:
    progress advances are covered by earlier uploads and inserts in the same
    chunk, retry waits are well-formed, no ledger status writes happen inside
    the loop body, fixed mode derives no prompts, and every image call uses
    aspect ratio 1:1, with no img2img source in guided mode and an img2img
    source plus the static instruction in fixed mode. -/
def ChunkOk (mode : Mode) (ev : List Event) : Prop :=
  (∀ up cr, persistOrdered up cr ev = true) ∧
  retryWaitsOk ev = true ∧
  statusWrites ev = [] ∧
  (mode = Mode.fixed → llmCallCount ev = 0) ∧
  imageCallsAspectOk ev = true ∧
  (mode = Mode.guided → ∀ x ∈ imageCallSources ev, x = none) ∧
  (mode = Mode.fixed → ∀ x ∈ imageCallSources ev, ∃ y, x = some y) ∧
  (mode = Mode.fixed → ∀ p ∈ imageCallPrompts ev, p = STATIC_PROMPT)

/-- Initial loop-local state used to exercise the attempt functions on a
    fresh one-iteration run. -/
def lsW : LState :=
  { frames := [], row := run1, prevImage := 7, prevPrompt := none }

/-- All run-row fields except the iteration counter (the loop body mutates
    the row only through updateProgress). -/
def rowShell (r : RunRow) : Nat × Status × Option String × Nat × Bool × Bool × Bool :=
  (r.total_iterations, r.status, r.error_message, r.retry_count,
   r.started_set, r.completed_set, r.durationWritten)

theorem updateProgress_idem (r : RunRow) (i : Nat) :
    updateProgress (updateProgress r i) i = updateProgress r i := rfl

theorem jsOrNull_static : jsOrNull STATIC_PROMPT = some STATIC_PROMPT := by decide


theorem finishFirst_spec (env : Env) (total i : Nat) (p : String) (s : Option Nat)
    (ev0 : List Event) (ls : LState) (r : Option String)
    (ev' : List Event) (ls' : LState) (r' : Option String)
    (h : finishFirst env total i p s ev0 ls r = (ev', ls', r')) :
    ls'.frames = ls.frames ∧ ls'.row = ls.row ∧ ls'.prevPrompt = ls.prevPrompt ∧
    (r' = none → r = none ∧ ls'.prevImage = env.imageGen p s) ∧
    (r' ≠ none → ls'.prevImage = ls.prevImage) := by
  unfold finishFirst at h
  cases r with
  | some e =>
    simp only [Prod.mk.injEq] at h
    obtain ⟨-, h1, h2⟩ := h
    subst h1; subst h2
    simp
  | none =>
    cases hj : env.jobProgressFail i <;> simp only [hj, Prod.mk.injEq] at h
    case some e =>
      obtain ⟨-, h1, h2⟩ := h
      subst h1; subst h2
      simp
    case none =>
      obtain ⟨-, h1, h2⟩ := h
      subst h1; subst h2
      simp

theorem firstAttempt_spec (mode : Mode) (env : Env) (eid : String) (total i : Nat)
    (ls : LState) (ev : List Event) (ls' : LState) (r : Option String)
    (h : firstAttempt mode env eid total i ls = (ev, ls', r)) :
    (ls'.row = ls.row ∨ ls'.row = updateProgress ls.row i) ∧
    (ls'.frames = ls.frames ∨
      (hasFrame ls.frames i = false ∧
       ∃ f, f.iteration_number = i ∧
         (mode = Mode.fixed → f.prompt_used = some STATIC_PROMPT) ∧
         ls'.frames = ls.frames ++ [f])) ∧
    (ls'.row ≠ ls.row → hasFrame ls'.frames i = true) ∧
    (r = none →
      ls'.row = updateProgress ls.row i ∧ hasFrame ls.frames i = false ∧
      ∃ f, f.iteration_number = i ∧
        (mode = Mode.fixed → f.prompt_used = some STATIC_PROMPT) ∧
        ls'.frames = ls.frames ++ [f]) ∧
    (r ≠ none →
      ls'.prevImage = ls.prevImage ∧
      (mode = Mode.fixed → ls'.prevPrompt = ls.prevPrompt) ∧
      (mode = Mode.guided →
        ls'.prevPrompt = ls.prevPrompt ∨
        (env.llmFail i 0 = none ∧
         ls'.prevPrompt = some (env.llmGen ls.prevImage i ls.prevPrompt)))) := by
  cases mode with
  | guided =>
    unfold firstAttempt at h
    cases hl : env.llmFail i 0 <;> simp only [hl] at h
    case some e =>
      simp only [Prod.mk.injEq] at h
      obtain ⟨-, h1, h2⟩ := h
      subst h1; subst h2
      simp
    case none =>
      rcases hp : persistFrame env eid i 0 (env.llmGen ls.prevImage i ls.prevPrompt)
          none { ls with prevPrompt := some (env.llmGen ls.prevImage i ls.prevPrompt) }
        with ⟨ev1, ls2, r1⟩
      rw [hp] at h
      rcases hf : finishFirst env total i (env.llmGen ls.prevImage i ls.prevPrompt)
          none ev1 ls2 r1 with ⟨ev2, ls3, r2⟩
      rw [hf] at h
      simp only [Prod.mk.injEq] at h
      obtain ⟨-, h1, h2⟩ := h
      subst h1; subst h2
      obtain ⟨hpi, hpp, hnone, hsome⟩ := persistFrame_spec _ _ _ _ _ _ _ _ _ _ hp
      obtain ⟨hff, hfr, hfp, hfn, hfs⟩ := finishFirst_spec _ _ _ _ _ _ _ _ _ _ _ hf
      simp only at hpi hpp hnone hsome
      cases r1 with
      | none =>
        obtain ⟨hnf, hfr2, hrow⟩ := hnone rfl
        have hBfr : ls3.frames = ls.frames ++ [mkFrame env eid i
            (env.llmGen ls.prevImage i ls.prevPrompt) none] := by rw [hff, hfr2]
        have hBrow : ls3.row = updateProgress ls.row i := by rw [hfr, hrow]
        refine ⟨Or.inr hBrow, Or.inr ⟨hnf, _, rfl, by simp, hBfr⟩, ?_, ?_, ?_⟩
        · intro _
          simp [hBfr, hasFrame, mkFrame]
        · intro _
          exact ⟨hBrow, hnf, _, rfl, by simp, hBfr⟩
        · intro hr2
          have hr2' : r2 ≠ none := hr2
          refine ⟨?_, by simp, ?_⟩
          · rw [hfs hr2', hpi]
          · intro _
            right
            exact ⟨rfl, by rw [hfp, hpp]⟩
      | some e1 =>
        have hr2 : r2 ≠ none := by
          intro hc
          exact absurd (hfn hc).1 (by simp)
        obtain ⟨hrow2, hfr2⟩ := hsome (by simp)
        have hArow : ls3.row = ls.row := by rw [hfr, hrow2]
        refine ⟨Or.inl hArow, ?_, ?_, ?_, ?_⟩
        · rcases hfr2 with h3 | ⟨h3, h4⟩
          · left; rw [hff, h3]
          · right
            exact ⟨h3, _, rfl, by simp, by rw [hff, h4]⟩
        · intro hne
          exact absurd hArow hne
        · intro hc
          exact absurd hc hr2
        · intro _
          refine ⟨by rw [hfs hr2, hpi], by simp, ?_⟩
          intro _
          right
          exact ⟨rfl, by rw [hfp, hpp]⟩
  | fixed =>
    unfold firstAttempt at h
    rcases hp : persistFrame env eid i 0 STATIC_PROMPT (some ls.prevImage) ls
      with ⟨ev1, ls2, r1⟩
    rw [hp] at h
    obtain ⟨hpi, hpp, hnone, hsome⟩ := persistFrame_spec _ _ _ _ _ _ _ _ _ _ hp
    obtain ⟨hff, hfr, hfp, hfn, hfs⟩ := finishFirst_spec _ _ _ _ _ _ _ _ _ _ _ h
    cases r1 with
    | none =>
      obtain ⟨hnf, hfr2, hrow⟩ := hnone rfl
      have hBfr : ls'.frames = ls.frames ++ [mkFrame env eid i STATIC_PROMPT
          (some ls.prevImage)] := by rw [hff, hfr2]
      have hBrow : ls'.row = updateProgress ls.row i := by rw [hfr, hrow]
      have hPr : (mkFrame env eid i STATIC_PROMPT (some ls.prevImage)).prompt_used
          = some STATIC_PROMPT := by simp [mkFrame, jsOrNull_static]
      refine ⟨Or.inr hBrow, Or.inr ⟨hnf, _, rfl, fun _ => hPr, hBfr⟩, ?_, ?_, ?_⟩
      · intro _
        simp [hBfr, hasFrame, mkFrame]
      · intro _
        exact ⟨hBrow, hnf, _, rfl, fun _ => hPr, hBfr⟩
      · intro hr
        exact ⟨by rw [hfs hr, hpi], fun _ => by rw [hfp, hpp], by simp⟩
    | some e1 =>
      have hr2 : r ≠ none := by
        intro hc
        exact absurd (hfn hc).1 (by simp)
      obtain ⟨hrow2, hfr2⟩ := hsome (by simp)
      have hArow : ls'.row = ls.row := by rw [hfr, hrow2]
      have hPr : (mkFrame env eid i STATIC_PROMPT (some ls.prevImage)).prompt_used
          = some STATIC_PROMPT := by simp [mkFrame, jsOrNull_static]
      refine ⟨Or.inl hArow, ?_, ?_, ?_, ?_⟩
      · rcases hfr2 with h3 | ⟨h3, h4⟩
        · left; rw [hff, h3]
        · right
          exact ⟨h3, _, rfl, fun _ => hPr, by rw [hff, h4]⟩
      · intro hne
        exact absurd hArow hne
      · intro hc
        exact absurd hc hr2
      · intro _
        exact ⟨by rw [hfs hr2, hpi], fun _ => by rw [hfp, hpp], by simp⟩

theorem hasFrame_append_self (fs : List Frame) (f : Frame) (i : Nat)
    (h : f.iteration_number = i) : hasFrame (fs ++ [f]) i = true := by
  simp [hasFrame, h]

theorem FramesStep_rfl (mode : Mode) (i : Nat) (fs : List Frame) :
    FramesStep mode i fs fs := Or.inl rfl

theorem FramesStep_trans (mode : Mode) (i : Nat) (fs1 fs2 fs3 : List Frame)
    (h12 : FramesStep mode i fs1 fs2) (h23 : FramesStep mode i fs2 fs3) :
    FramesStep mode i fs1 fs3 := by
  rcases h12 with h12 | ⟨hn1, f1, hf1, hp1, he1⟩
  · subst h12; exact h23
  · rcases h23 with h23 | ⟨hn2, f2, hf2, hp2, he2⟩
    · subst h23
      exact Or.inr ⟨hn1, f1, hf1, hp1, he1⟩
    · exfalso
      rw [he1] at hn2
      rw [hasFrame_append_self fs1 f1 i hf1] at hn2
      exact Bool.true_eq_false.mp hn2

theorem retryAttempt_spec (mode : Mode) (env : Env) (eid : String) (i a : Nat)
    (ls : LState) (ev : List Event) (ls' : LState) (r : Option String)
    (h : retryAttempt mode env eid i a ls = (ev, ls', r)) :
    (ls'.row = ls.row ∨ ls'.row = updateProgress ls.row i) ∧
    FramesStep mode i ls.frames ls'.frames ∧
    (ls'.row ≠ ls.row → hasFrame ls'.frames i = true) ∧
    (r = none →
      ls'.row = updateProgress ls.row i ∧ hasFrame ls.frames i = false ∧
      ∃ f, f.iteration_number = i ∧
        (mode = Mode.fixed → f.prompt_used = some STATIC_PROMPT) ∧
        ls'.frames = ls.frames ++ [f]) ∧
    (r ≠ none →
      ls'.row = ls.row ∧ ls'.prevImage = ls.prevImage ∧
      ls'.prevPrompt = ls.prevPrompt) := by
  cases mode with
  | guided =>
    unfold retryAttempt at h
    cases hl : env.llmFail i a <;> simp only [hl] at h
    case some e =>
      simp only [Prod.mk.injEq] at h
      obtain ⟨-, h1, h2⟩ := h
      subst h1; subst h2
      simp [FramesStep]
    case none =>
      rcases hp : persistFrame env eid i a (env.llmGen ls.prevImage i ls.prevPrompt)
          none ls with ⟨ev2, ls2, r1⟩
      rw [hp] at h
      obtain ⟨hpi, hpp, hnone, hsome⟩ := persistFrame_spec _ _ _ _ _ _ _ _ _ _ hp
      cases r1 with
      | none =>
        simp only [Prod.mk.injEq] at h
        obtain ⟨-, h1, h2⟩ := h
        subst h1; subst h2
        obtain ⟨hnf, hfr2, hrow⟩ := hnone rfl
        refine ⟨Or.inr hrow, Or.inr ⟨hnf, _, rfl, by simp, hfr2⟩, ?_, ?_, by simp⟩
        · intro _
          simp only [hfr2]
          exact hasFrame_append_self _ _ _ rfl
        · intro _
          exact ⟨hrow, hnf, _, rfl, by simp, hfr2⟩
      | some e1 =>
        simp only [Prod.mk.injEq] at h
        obtain ⟨-, h1, h2⟩ := h
        subst h1; subst h2
        obtain ⟨hrow2, hfr2⟩ := hsome (by simp)
        refine ⟨Or.inl hrow2, ?_, ?_, by simp, ?_⟩
        · rcases hfr2 with h3 | ⟨h3, h4⟩
          · exact Or.inl h3
          · exact Or.inr ⟨h3, _, rfl, by simp, h4⟩
        · intro hne
          exact absurd hrow2 hne
        · intro _
          exact ⟨hrow2, hpi, hpp⟩
  | fixed =>
    unfold retryAttempt at h
    rcases hp : persistFrame env eid i a STATIC_PROMPT (some ls.prevImage) ls
      with ⟨ev2, ls2, r1⟩
    rw [hp] at h
    obtain ⟨hpi, hpp, hnone, hsome⟩ := persistFrame_spec _ _ _ _ _ _ _ _ _ _ hp
    have hPr : (mkFrame env eid i STATIC_PROMPT (some ls.prevImage)).prompt_used
        = some STATIC_PROMPT := by simp [mkFrame, jsOrNull_static]
    cases r1 with
    | none =>
      simp only [Prod.mk.injEq] at h
      obtain ⟨-, h1, h2⟩ := h
      subst h1; subst h2
      obtain ⟨hnf, hfr2, hrow⟩ := hnone rfl
      refine ⟨Or.inr hrow, Or.inr ⟨hnf, _, rfl, fun _ => hPr, hfr2⟩, ?_, ?_, by simp⟩
      · intro _
        simp only [hfr2]
        exact hasFrame_append_self _ _ _ rfl
      · intro _
        exact ⟨hrow, hnf, _, rfl, fun _ => hPr, hfr2⟩
    | some e1 =>
      simp only [Prod.mk.injEq] at h
      obtain ⟨-, h1, h2⟩ := h
      subst h1; subst h2
      obtain ⟨hrow2, hfr2⟩ := hsome (by simp)
      refine ⟨Or.inl hrow2, ?_, ?_, by simp, ?_⟩
      · rcases hfr2 with h3 | ⟨h3, h4⟩
        · exact Or.inl h3
        · exact Or.inr ⟨h3, _, rfl, fun _ => hPr, h4⟩
      · intro hne
        exact absurd hrow2 hne
      · intro _
        exact ⟨hrow2, hpi, hpp⟩


theorem FramesStep_absent (mode : Mode) (i : Nat) (fs fs1 : List Frame)
    (h : FramesStep mode i fs fs1) (hn : hasFrame fs1 i = false) : fs1 = fs := by
  rcases h with h | ⟨-, f, hf, -, he⟩
  · exact h
  · exfalso
    rw [he, hasFrame_append_self fs f i hf] at hn
    exact Bool.true_eq_false.mp hn

theorem FramesStep_keep (mode : Mode) (i : Nat) (fs fs1 : List Frame)
    (h : FramesStep mode i fs fs1) (hh : hasFrame fs i = true) :
    hasFrame fs1 i = true := by
  rcases h with h | ⟨hn, f, hf, -, he⟩
  · rw [h]; exact hh
  · rw [hh] at hn
    exact absurd hn (by simp)

theorem retryLoop_spec (mode : Mode) (env : Env) (eid : String) (i : Nat)
    (ls : LState) (ev : List Event) (ls' : LState) (r : Option String)
    (h : retryLoop mode env eid i ls = (ev, ls', r)) :
    (ls'.row = ls.row ∨ ls'.row = updateProgress ls.row i) ∧
    FramesStep mode i ls.frames ls'.frames ∧
    (ls'.row ≠ ls.row → hasFrame ls'.frames i = true) ∧
    (r = none →
      ls'.row = updateProgress ls.row i ∧ hasFrame ls.frames i = false ∧
      ∃ f, f.iteration_number = i ∧
        (mode = Mode.fixed → f.prompt_used = some STATIC_PROMPT) ∧
        ls'.frames = ls.frames ++ [f]) ∧
    (r ≠ none →
      ls'.row = ls.row ∧ ls'.prevImage = ls.prevImage ∧
      ls'.prevPrompt = ls.prevPrompt ∧
      ∃ e3, r = some ("Failed after 3 retries: " ++ e3)) := by
  unfold retryLoop at h
  rcases h1 : retryAttempt mode env eid i 1 ls with ⟨ev1, ls1, r1⟩
  rw [h1] at h
  obtain ⟨A1, B1, C1, D1, E1⟩ := retryAttempt_spec _ _ _ _ _ _ _ _ _ h1
  cases r1 with
  | none =>
    simp only [Prod.mk.injEq] at h
    obtain ⟨-, hs, hr⟩ := h
    subst hs; subst hr
    exact ⟨A1, B1, C1, fun _ => D1 rfl, fun hc => absurd rfl hc⟩
  | some e1 =>
    dsimp only at h
    rcases h2 : retryAttempt mode env eid i 2 ls1 with ⟨ev2, ls2, r2⟩
    rw [h2] at h
    obtain ⟨A2, B2, C2, D2, E2⟩ := retryAttempt_spec _ _ _ _ _ _ _ _ _ h2
    obtain ⟨hrow1, hpi1, hpp1⟩ := E1 (by simp)
    cases r2 with
    | none =>
      simp only [Prod.mk.injEq] at h
      obtain ⟨-, hs, hr⟩ := h
      subst hs; subst hr
      obtain ⟨hrow2, hnf2, f, hf, hft, happ⟩ := D2 rfl
      have hfs1 : ls1.frames = ls.frames := FramesStep_absent _ _ _ _ B1 hnf2
      refine ⟨Or.inr (by rw [hrow2, hrow1]), ?_, ?_, ?_, fun hc => absurd rfl hc⟩
      · right
        exact ⟨by rw [← hfs1]; exact hnf2, f, hf, hft, by rw [happ, hfs1]⟩
      · intro _
        rw [happ]
        exact hasFrame_append_self _ _ _ hf
      · intro _
        exact ⟨by rw [hrow2, hrow1], by rw [← hfs1]; exact hnf2,
          f, hf, hft, by rw [happ, hfs1]⟩
    | some e2 =>
      dsimp only at h
      rcases h3 : retryAttempt mode env eid i 3 ls2 with ⟨ev3, ls3, r3⟩
      rw [h3] at h
      obtain ⟨A3, B3, C3, D3, E3⟩ := retryAttempt_spec _ _ _ _ _ _ _ _ _ h3
      obtain ⟨hrow2, hpi2, hpp2⟩ := E2 (by simp)
      cases r3 with
      | none =>
        simp only [Prod.mk.injEq] at h
        obtain ⟨-, hs, hr⟩ := h
        subst hs; subst hr
        obtain ⟨hrow3, hnf3, f, hf, hft, happ⟩ := D3 rfl
        have hfs2 : ls2.frames = ls1.frames := FramesStep_absent _ _ _ _ B2 hnf3
        have hfs1 : ls1.frames = ls.frames :=
          FramesStep_absent _ _ _ _ B1 (by rw [← hfs2]; exact hnf3)
        refine ⟨Or.inr (by rw [hrow3, hrow2, hrow1]), ?_, ?_, ?_,
          fun hc => absurd rfl hc⟩
        · right
          exact ⟨by rw [← hfs1, ← hfs2]; exact hnf3, f, hf, hft,
            by rw [happ, hfs2, hfs1]⟩
        · intro _
          rw [happ]
          exact hasFrame_append_self _ _ _ hf
        · intro _
          exact ⟨by rw [hrow3, hrow2, hrow1], by rw [← hfs1, ← hfs2]; exact hnf3,
            f, hf, hft, by rw [happ, hfs2, hfs1]⟩
      | some e3 =>
        simp only [Prod.mk.injEq] at h
        obtain ⟨-, hs, hr⟩ := h
        subst hs; subst hr
        obtain ⟨hrow3, hpi3, hpp3⟩ := E3 (by simp)
        have hrow : ls3.row = ls.row := by rw [hrow3, hrow2, hrow1]
        refine ⟨Or.inl hrow, ?_, ?_, ?_, ?_⟩
        · exact FramesStep_trans _ _ _ _ _ (FramesStep_trans _ _ _ _ _ B1 B2) B3
        · intro hne
          exact absurd hrow hne
        · intro hc
          exact absurd hc (by simp)
        · intro _
          exact ⟨hrow, by rw [hpi3, hpi2, hpi1], by rw [hpp3, hpp2, hpp1],
            e3, rfl⟩

theorem runIteration_spec (mode : Mode) (env : Env) (eid : String) (total i : Nat)
    (ls : LState) (ev : List Event) (ls' : LState) (r : Option String)
    (h : runIteration mode env eid total i ls = (ev, ls', r)) :
    (ls'.row = ls.row ∨ ls'.row = updateProgress ls.row i) ∧
    FramesStep mode i ls.frames ls'.frames ∧
    (ls'.row ≠ ls.row → hasFrame ls'.frames i = true) ∧
    (r = none →
      ls'.row = updateProgress ls.row i ∧ hasFrame ls.frames i = false ∧
      ∃ f, f.iteration_number = i ∧
        (mode = Mode.fixed → f.prompt_used = some STATIC_PROMPT) ∧
        ls'.frames = ls.frames ++ [f]) ∧
    (r ≠ none → ∃ e3, r = some ("Failed after 3 retries: " ++ e3)) := by
  unfold runIteration at h
  rcases h0 : firstAttempt mode env eid total i ls with ⟨ev0, ls1, r0⟩
  rw [h0] at h
  obtain ⟨A0, B0, C0, D0, E0⟩ := firstAttempt_spec _ _ _ _ _ _ _ _ _ h0
  have B0' : FramesStep mode i ls.frames ls1.frames := B0
  cases r0 with
  | none =>
    simp only [Prod.mk.injEq] at h
    obtain ⟨-, hs, hr⟩ := h
    subst hs; subst hr
    exact ⟨A0, B0', C0, fun _ => D0 rfl, fun hc => absurd rfl hc⟩
  | some e0 =>
    dsimp only at h
    rcases hL : retryLoop mode env eid i ls1 with ⟨evL, ls2, rL⟩
    rw [hL] at h
    obtain ⟨AL, BL, CL, DL, EL⟩ := retryLoop_spec _ _ _ _ _ _ _ _ hL
    simp only [Prod.mk.injEq] at h
    obtain ⟨-, hs, hr⟩ := h
    subst hs; subst hr
    refine ⟨?_, FramesStep_trans _ _ _ _ _ B0' BL, ?_, ?_, ?_⟩
    · rcases AL with hA | hA
      · rw [hA]; exact A0
      · rcases A0 with h0' | h0'
        · right; rw [hA, h0']
        · right; rw [hA, h0', updateProgress_idem]
    · intro hne
      by_cases hx : ls2.row = ls1.row
      · have h1x : ls1.row ≠ ls.row := by
          intro hc
          exact hne (by rw [hx, hc])
        exact FramesStep_keep _ _ _ _ BL (C0 h1x)
      · exact CL hx
    · intro hrl
      obtain ⟨hrow2, hnf2, f, hf, hft, happ⟩ := DL hrl
      have hfs1 : ls1.frames = ls.frames := FramesStep_absent _ _ _ _ B0' hnf2
      have hrw1 : ls1.row = ls.row := by
        by_contra hc
        have hcc := C0 hc
        rw [hnf2] at hcc
        exact absurd hcc (by simp)
      exact ⟨by rw [hrow2, hrw1], by rw [← hfs1]; exact hnf2,
        f, hf, hft, by rw [happ, hfs1]⟩
    · intro hx
      obtain ⟨-, -, -, hex⟩ := EL hx
      exact hex


theorem range'_concat_one (s n : Nat) :
    List.range' s (n + 1) = List.range' s n ++ [s + n] := by
  have h := @List.range'_concat 1 s n
  simpa using h

theorem updateProgress_ne (row : RunRow) (i : Nat)
    (h : row.current_iteration ≠ i) : updateProgress row i ≠ row := by
  intro hc
  apply h
  have h2 : (updateProgress row i).current_iteration = i := rfl
  rw [hc] at h2
  exact h2

theorem runLoop_spec (mode : Mode) (env : Env) (eid : String) (total : Nat) :
    ∀ (rem i : Nat) (ls : LState) (ev : List Event) (ls' : LState)
      (r : Option (Nat × String)),
      runLoop mode env eid total i rem ls = (ev, ls', r) →
      1 ≤ i →
      framesIters ls.frames = List.range' 1 (i - 1) →
      ls.row.current_iteration = i - 1 →
      (r = none →
        framesIters ls'.frames = List.range' 1 (i - 1 + rem) ∧
        ls'.row.current_iteration = i - 1 + rem) ∧
      (∀ k e, r = some (k, e) →
        i ≤ k ∧ k ≤ i - 1 + rem ∧
        (∃ e3, e = "Failed after 3 retries: " ++ e3) ∧
        (framesIters ls'.frames = List.range' 1 (k - 1) ∨
          framesIters ls'.frames = List.range' 1 k) ∧
        (ls'.row.current_iteration = k - 1 ∨
          (ls'.row.current_iteration = k ∧ hasFrame ls'.frames k = true))) := by
  intro rem
  induction rem with
  | zero =>
    intro i ls ev ls' r h hi hfr hcur
    simp only [runLoop, Prod.mk.injEq] at h
    obtain ⟨-, h1, h2⟩ := h
    subst h1; subst h2
    refine ⟨fun _ => ?_, fun k e hk => by cases hk⟩
    simpa using ⟨hfr, hcur⟩
  | succ rem ih =>
    intro i ls ev ls' r h hi hfr hcur
    simp only [runLoop] at h
    rcases hI : runIteration mode env eid total i ls with ⟨evI, ls1, rI⟩
    rw [hI] at h
    obtain ⟨AI, BI, CI, DI, EI⟩ := runIteration_spec _ _ _ _ _ _ _ _ _ hI
    cases rI with
    | none =>
      dsimp only at h
      obtain ⟨hrow1, -, f, hf, -, happ⟩ := DI rfl
      have hfr1 : framesIters ls1.frames = List.range' 1 i := by
        rw [happ, framesIters, List.map_append, ← framesIters, hfr]
        have h1 : List.range' 1 (i - 1 + 1) = List.range' 1 (i - 1) ++ [1 + (i - 1)] :=
          range'_concat_one 1 (i - 1)
        have h2 : i - 1 + 1 = i := by omega
        have h3 : 1 + (i - 1) = i := by omega
        rw [h2, h3] at h1
        rw [h1]
        simp [hf]
      have hcur1 : ls1.row.current_iteration = i := by
        rw [hrow1]; rfl
      rcases hR : runLoop mode env eid total (i + 1) rem ls1 with ⟨ev2, ls2, r2⟩
      rw [hR] at h
      dsimp only at h
      simp only [Prod.mk.injEq] at h
      obtain ⟨-, h1, h2⟩ := h
      subst h1; subst h2
      have hih := ih (i + 1) ls1 ev2 ls2 r2 hR (by omega)
        (by simpa using hfr1) (by simpa using hcur1)
      obtain ⟨hihn, hihs⟩ := hih
      constructor
      · intro hrn
        obtain ⟨ha, hb⟩ := hihn hrn
        have harith : i + 1 - 1 + rem = i - 1 + (rem + 1) := by omega
        rw [harith] at ha hb
        exact ⟨ha, hb⟩
      · intro k e hk
        obtain ⟨ha, hb, hc, hd, he⟩ := hihs k e hk
        exact ⟨by omega, by omega, hc, hd, he⟩
    | some e =>
      dsimp only at h
      simp only [Prod.mk.injEq] at h
      obtain ⟨-, h1, h2⟩ := h
      subst h1; subst h2
      refine ⟨fun hc => absurd hc (by simp), ?_⟩
      intro k e' hk
      have hki : k = i ∧ e' = e := by
        constructor <;> { injection hk with hk2; injection hk2 with ha hb; simp [ha.symm, hb.symm] }
      obtain ⟨hk1, hk2⟩ := hki
      have hk1s : i = k := hk1.symm
      subst hk1s
      subst hk2
      obtain ⟨e3, he3⟩ := EI (by simp)
      have he3' : e' = "Failed after 3 retries: " ++ e3 := by
        injection he3 with h4
      refine ⟨le_refl i, by omega, ⟨e3, he3'⟩, ?_, ?_⟩
      · rcases BI with hB | ⟨-, f, hf, -, happ⟩
        · left; rw [hB, hfr]
        · right
          rw [happ, framesIters, List.map_append, ← framesIters, hfr]
          have h1 : List.range' 1 (i - 1 + 1) = List.range' 1 (i - 1) ++ [1 + (i - 1)] :=
            range'_concat_one 1 (i - 1)
          have h2 : i - 1 + 1 = i := by omega
          have h3 : 1 + (i - 1) = i := by omega
          rw [h2, h3] at h1
          rw [h1]
          simp [hf]
      · rcases AI with hA | hA
        · left; rw [hA, hcur]
        · right
          have hne : ls1.row ≠ ls.row := by
            rw [hA]
            exact updateProgress_ne ls.row i (by omega)
          exact ⟨by rw [hA]; rfl, CI hne⟩


theorem prepended_ne_empty (a b : String) (h : a.length ≠ 0) : a ++ b ≠ "" := by
  intro hc
  have h2 := congrArg String.length hc
  rw [String.length_append] at h2
  simp only [String.length_empty] at h2
  omega

theorem updateStatus_processing (r : RunRow) :
    updateStatus r Status.processing =
      { r with status := Status.processing, started_set := true } := rfl

theorem rowShell_updateProgress (r : RunRow) (i : Nat) :
    rowShell (updateProgress r i) = rowShell r := rfl

theorem runIteration_shell (mode : Mode) (env : Env) (eid : String) (total i : Nat)
    (ls : LState) (ev : List Event) (ls' : LState) (r : Option String)
    (h : runIteration mode env eid total i ls = (ev, ls', r)) :
    rowShell ls'.row = rowShell ls.row := by
  obtain ⟨A, -, -, -, -⟩ := runIteration_spec _ _ _ _ _ _ _ _ _ h
  rcases A with hA | hA
  · rw [hA]
  · rw [hA, rowShell_updateProgress]

theorem runLoop_shell (mode : Mode) (env : Env) (eid : String) (total : Nat) :
    ∀ (rem i : Nat) (ls : LState) (ev : List Event) (ls' : LState)
      (r : Option (Nat × String)),
      runLoop mode env eid total i rem ls = (ev, ls', r) →
      rowShell ls'.row = rowShell ls.row := by
  intro rem
  induction rem with
  | zero =>
    intro i ls ev ls' r h
    simp only [runLoop, Prod.mk.injEq] at h
    obtain ⟨-, h1, -⟩ := h
    rw [← h1]
  | succ rem ih =>
    intro i ls ev ls' r h
    simp only [runLoop] at h
    rcases hI : runIteration mode env eid total i ls with ⟨evI, ls1, rI⟩
    rw [hI] at h
    have hsh := runIteration_shell _ _ _ _ _ _ _ _ _ hI
    cases rI with
    | none =>
      dsimp only at h
      rcases hR : runLoop mode env eid total (i + 1) rem ls1 with ⟨ev2, ls2, r2⟩
      rw [hR] at h
      dsimp only at h
      simp only [Prod.mk.injEq] at h
      obtain ⟨-, h1, -⟩ := h
      rw [← h1, ih _ _ _ _ _ hR, hsh]
    | some e =>
      dsimp only at h
      simp only [Prod.mk.injEq] at h
      obtain ⟨-, h1, -⟩ := h
      rw [← h1, hsh]

theorem processEvolution_spec (mode : Mode) (env : Env) (eid pid : String)
    (run : RunRow) (F : Final) (hcur : run.current_iteration = 0)
    (h : processEvolution mode env eid pid run = F) :
    (F.outcome = Outcome.completed →
      framesIters F.frames = List.range' 1 run.total_iterations ∧
      F.row.current_iteration = run.total_iterations ∧
      F.row.status = Status.completed ∧
      F.result.status = ResultStatus.completed ∧
      F.result.framesGenerated = run.total_iterations) ∧
    (∀ k msg, F.outcome = Outcome.failedAt k msg →
      1 ≤ k ∧ k ≤ run.total_iterations ∧
      (∃ e3, msg = "Failed after 3 retries: " ++ e3) ∧
      (framesIters F.frames = List.range' 1 (k - 1) ∨
        framesIters F.frames = List.range' 1 k) ∧
      (F.row.current_iteration = k - 1 ∨
        (F.row.current_iteration = k ∧ hasFrame F.frames k = true)) ∧
      F.row.status = Status.failed ∧
      F.row.error_message = some msg ∧
      F.row.retry_count = run.retry_count + 1 ∧
      F.row.durationWritten = run.durationWritten) ∧
    (∀ msg, F.outcome = Outcome.failedSetup msg →
      F.frames = [] ∧ F.row.status = Status.failed ∧
      F.row.error_message = some msg ∧ msg ≠ "" ∧
      F.row.retry_count = run.retry_count + 1 ∧
      F.row.durationWritten = run.durationWritten ∧
      F.trace = [Event.statusWrite Status.failed]) ∧
    (F.result.status = ResultStatus.failed → F.result.framesGenerated = 0) ∧
    (F.result.status = ResultStatus.completed →
      F.result.framesGenerated = run.total_iterations) := by
  unfold processEvolution at h
  cases hpe : env.photoExists with
  | false =>
    simp only [hpe] at h
    subst h
    refine ⟨?_, ?_, ?_, ?_, ?_⟩
    · intro hc
      exact absurd hc (by simp)
    · intro k msg hc
      exact absurd hc (by simp)
    · intro msg hmsg
      have hmsg' : "Source photo " ++ pid ++ " not found" = msg := by
        injection hmsg
      subst hmsg'
      refine ⟨rfl, rfl, rfl, ?_, rfl, rfl, rfl⟩
      exact prepended_ne_empty "Source photo " (pid ++ " not found") (by decide)
    · intro _
      rfl
    · intro hc
      exact absurd hc (by simp)
  | true =>
    simp only [hpe] at h
    cases hdl : env.downloadFail with
    | some e =>
      rw [hdl] at h
      dsimp only at h
      subst h
      refine ⟨?_, ?_, ?_, ?_, ?_⟩
      · intro hc
        exact absurd hc (by simp)
      · intro k msg hc
        exact absurd hc (by simp)
      · intro msg hmsg
        have hmsg' : "Failed to download file: " ++ e = msg := by
          injection hmsg
        subst hmsg'
        refine ⟨rfl, rfl, rfl, ?_, rfl, rfl, rfl⟩
        exact prepended_ne_empty "Failed to download file: " e (by decide)
      · intro _
        rfl
      · intro hc
        exact absurd hc (by simp)
    | none =>
      rw [hdl] at h
      dsimp only at h
      rcases hR : runLoop mode env eid run.total_iterations 1 run.total_iterations
          { frames := [], row := updateStatus run Status.processing,
            prevImage := env.sourcePhoto, prevPrompt := none }
        with ⟨evE, lsE, rr⟩
      rw [hR] at h
      have hsh := runLoop_shell _ _ _ _ _ _ _ _ _ _ hR
      have hspec := runLoop_spec mode env eid run.total_iterations
        run.total_iterations 1 _ _ _ _ hR (le_refl 1) (by simp [framesIters])
        (by simpa [updateStatus_processing] using hcur)
      obtain ⟨hnone, hsome⟩ := hspec
      have hshell : rowShell lsE.row = rowShell (updateStatus run Status.processing) := hsh
      simp only [rowShell, updateStatus_processing, Prod.mk.injEq] at hshell
      obtain ⟨shTot, shSt, shErr, shRet, shStart, shComp, shDur⟩ := hshell
      cases rr with
      | none =>
        dsimp only at h
        subst h
        obtain ⟨hfr, hcu⟩ := hnone rfl
        have harith : 1 - 1 + run.total_iterations = run.total_iterations := by omega
        rw [harith] at hfr hcu
        refine ⟨?_, ?_, ?_, ?_, ?_⟩
        · intro _
          exact ⟨hfr, hcu, rfl, rfl, rfl⟩
        · intro k msg hc
          exact absurd hc (by simp)
        · intro msg hc
          exact absurd hc (by simp)
        · intro hc
          exact absurd hc (by simp)
        · intro _
          rfl
      | some ke =>
        rcases ke with ⟨k, e⟩
        dsimp only at h
        subst h
        refine ⟨?_, ?_, ?_, ?_, ?_⟩
        · intro hc
          exact absurd hc (by simp)
        · intro k' msg hmsg
          simp only [Outcome.failedAt.injEq] at hmsg
          obtain ⟨hk, hm⟩ := hmsg
          subst hk; subst hm
          obtain ⟨ha, hb, hc, hd, he⟩ := hsome k e rfl
          have harith : 1 - 1 + run.total_iterations = run.total_iterations := by omega
          rw [harith] at hb
          refine ⟨ha, hb, hc, hd, he, rfl, rfl, ?_, ?_⟩
          · show lsE.row.retry_count + 1 = run.retry_count + 1
            rw [shRet]
          · show lsE.row.durationWritten = run.durationWritten
            rw [shDur]
        · intro msg hc
          exact absurd hc (by simp)
        · intro _
          rfl
        · intro hc
          exact absurd hc (by simp)


theorem hasFrame_iff_mem (fs : List Frame) (i : Nat) :
    hasFrame fs i = true ↔ i ∈ framesIters fs := by
  simp [hasFrame, framesIters, List.any_eq_true, List.mem_map]

theorem firstAttempt_noFail (mode : Mode) (env : Env) (eid : String)
    (total i : Nat) (ls : LState) (hnf : NoFailures env)
    (hha : hasFrame ls.frames i = false) :
    (firstAttempt mode env eid total i ls).2.2 = none := by
  obtain ⟨-, -, hl, him, hup, hcr, hpr, hjp⟩ := hnf
  have hha' : (ls.frames.any fun g => g.iteration_number == i) = false := hha
  cases mode <;>
    simp [firstAttempt, persistFrame, finishFirst, hl, him, hup, hcr, hpr, hjp, hha']

theorem runLoop_noFail (mode : Mode) (env : Env) (eid : String) (total : Nat)
    (hnf : NoFailures env) :
    ∀ (rem i : Nat) (ls : LState),
      1 ≤ i →
      framesIters ls.frames = List.range' 1 (i - 1) →
      (runLoop mode env eid total i rem ls).2.2 = none := by
  intro rem
  induction rem with
  | zero =>
    intro i ls hi hfr
    simp [runLoop]
  | succ rem ih =>
    intro i ls hi hfr
    have hha : hasFrame ls.frames i = false := by
      rw [← Bool.not_eq_true]
      intro hc
      rw [hasFrame_iff_mem, hfr, List.mem_range'_1] at hc
      omega
    simp only [runLoop]
    rcases hI : runIteration mode env eid total i ls with ⟨evI, ls1, rI⟩
    have hrI : rI = none := by
      have hfa := firstAttempt_noFail mode env eid total i ls hnf hha
      unfold runIteration at hI
      rcases hf0 : firstAttempt mode env eid total i ls with ⟨ev0, ls0, r0⟩
      rw [hf0] at hI
      rw [hf0] at hfa
      simp only at hfa
      subst hfa
      dsimp only at hI
      simp only [Prod.mk.injEq] at hI
      exact hI.2.2.symm
    subst hrI
    obtain ⟨-, -, -, DI, -⟩ := runIteration_spec _ _ _ _ _ _ _ _ _ hI
    obtain ⟨-, -, f, hf, -, happ⟩ := DI rfl
    dsimp only
    rcases hR : runLoop mode env eid total (i + 1) rem ls1 with ⟨ev2, ls2, r2⟩
    have hinv1 : framesIters ls1.frames = List.range' 1 (i + 1 - 1) := by
      rw [happ, framesIters, List.map_append, ← framesIters, hfr]
      have h1 : List.range' 1 (i - 1 + 1) = List.range' 1 (i - 1) ++ [1 + (i - 1)] :=
        range'_concat_one 1 (i - 1)
      have h2 : i - 1 + 1 = i := by omega
      have h3 : 1 + (i - 1) = i := by omega
      rw [h2, h3] at h1
      have h4 : i + 1 - 1 = i := by omega
      rw [h4, h1]
      simp [hf]
    have hihx := ih (i + 1) ls1 (by omega) hinv1
    rw [hR] at hihx
    exact hihx

theorem processEvolution_noFail_outcome (mode : Mode) (env : Env)
    (eid pid : String) (run : RunRow) (hnf : NoFailures env) :
    (processEvolution mode env eid pid run).outcome = Outcome.completed := by
  have hp := hnf.1
  have hd := hnf.2.1
  unfold processEvolution
  rw [hp, hd]
  dsimp only
  rcases hR : runLoop mode env eid run.total_iterations 1 run.total_iterations
      { frames := [], row := updateStatus run Status.processing,
        prevImage := env.sourcePhoto, prevPrompt := none }
    with ⟨evE, lsE, rr⟩
  have hrr := runLoop_noFail mode env eid run.total_iterations hnf
    run.total_iterations 1
    { frames := [], row := updateStatus run Status.processing,
      prevImage := env.sourcePhoto, prevPrompt := none }
    (le_refl 1) (by simp [framesIters])
  rw [hR] at hrr
  simp only at hrr
  subst hrr
  rfl


/-- C1 counterexample: with total_iterations = 1 and an environment whose only
    failure is the ledger progress update on iteration 1's first attempt, the
    run exhausts its retries at iteration k = 1 (each retry dies on the
    unique-constraint violation of the already-inserted frame row), yet a
    frame for iteration 1 does exist — contradicting the claim's "no frame
    exists for iteration k". -/
theorem c1_counterexample :
    (processEvolution Mode.guided envProgressFail "e1" "p1" run1).outcome
        = Outcome.failedAt 1 ("Failed after 3 retries: " ++ dupKeyMsg) ∧
    1 ∈ framesIters (processEvolution Mode.guided envProgressFail "e1" "p1" run1).frames := by
  decide

/-- C1 (amended): for every run (fresh, counter 0) that fails at iteration k
    after exhausting per-iteration retries, in either mode: frames for
    iterations 1..k-1 all exist, every persisted frame has iteration ≤ k and
    iterations are unique (so frames are unchanged, only possibly extended by
    a frame for k itself), the run status is failed with non-empty error text,
    and current_iteration is k-1 — or k, in which case the frame for k was
    persisted before the failure. -/
theorem c1_fail_state (mode : Mode) (env : Env) (eid pid : String)
    (run : RunRow) (hcur : run.current_iteration = 0) (k : Nat) (msg : String)
    (hout : (processEvolution mode env eid pid run).outcome = Outcome.failedAt k msg) :
    (∀ j, 1 ≤ j → j < k →
      j ∈ framesIters (processEvolution mode env eid pid run).frames) ∧
    (∀ j, j ∈ framesIters (processEvolution mode env eid pid run).frames →
      1 ≤ j ∧ j ≤ k) ∧
    (framesIters (processEvolution mode env eid pid run).frames).Nodup ∧
    (processEvolution mode env eid pid run).row.status = Status.failed ∧
    (processEvolution mode env eid pid run).row.error_message = some msg ∧
    msg ≠ "" ∧
    ((processEvolution mode env eid pid run).row.current_iteration = k - 1 ∨
      ((processEvolution mode env eid pid run).row.current_iteration = k ∧
        k ∈ framesIters (processEvolution mode env eid pid run).frames)) := by
  obtain ⟨-, h2, -, -, -⟩ := processEvolution_spec mode env eid pid run _ hcur rfl
  obtain ⟨hk1, -, ⟨e3, he3⟩, hd, he, hst, herr, -, -⟩ := h2 k msg hout
  refine ⟨?_, ?_, ?_, hst, herr, ?_, ?_⟩
  · intro j hj1 hjk
    rcases hd with hd | hd <;> rw [hd, List.mem_range'_1] <;> omega
  · intro j hj
    rcases hd with hd | hd <;> rw [hd, List.mem_range'_1] at hj <;> omega
  · rcases hd with hd | hd <;> rw [hd] <;>
      exact List.nodup_range' _ _ 1 (by norm_num)
  · rw [he3]
    exact prepended_ne_empty "Failed after 3 retries: " e3 (by decide)
  · rcases he with he | ⟨he, hf⟩
    · exact Or.inl he
    · exact Or.inr ⟨he, (hasFrame_iff_mem _ _).mp hf⟩

theorem c1_fail_state_witness :
    run1.current_iteration = 0 ∧
    (processEvolution Mode.guided envProgressFail "e1w" "p" run1).row.status
      = Status.failed :=
  ⟨rfl, (c1_fail_state Mode.guided envProgressFail "e1w" "p" run1 rfl 1
      ("Failed after 3 retries: " ++ dupKeyMsg) (by decide)).2.2.2.1⟩

/-- C2: for every fresh run with N ≥ 1 total iterations, in either mode, if
    every external call succeeds then the run ends with exactly N frames whose
    iteration numbers are exactly 1..N (each unique), status completed, and
    current_iteration = N. -/
theorem c2_success (mode : Mode) (env : Env) (eid pid : String) (run : RunRow)
    (hnf : NoFailures env) (hcur : run.current_iteration = 0)
    (hN : 1 ≤ run.total_iterations) :
    (processEvolution mode env eid pid run).frames.length = run.total_iterations ∧
    framesIters (processEvolution mode env eid pid run).frames
      = List.range' 1 run.total_iterations ∧
    (framesIters (processEvolution mode env eid pid run).frames).Nodup ∧
    (processEvolution mode env eid pid run).row.status = Status.completed ∧
    (processEvolution mode env eid pid run).row.current_iteration
      = run.total_iterations := by
  have hout := processEvolution_noFail_outcome mode env eid pid run hnf
  obtain ⟨h1, -, -, -, -⟩ := processEvolution_spec mode env eid pid run _ hcur rfl
  obtain ⟨hfr, hcu, hst, -, -⟩ := h1 hout
  refine ⟨?_, hfr, ?_, hst, hcu⟩
  · have hlen := congrArg List.length hfr
    simpa [framesIters] using hlen
  · rw [hfr]
    exact List.nodup_range' _ _ 1 (by norm_num)

theorem c2_success_witness :
    NoFailures envOk ∧ (runN 3).current_iteration = 0 ∧
    1 ≤ (runN 3).total_iterations ∧
    (processEvolution Mode.guided envOk "w2" "p" (runN 3)).row.status
      = Status.completed := by
  have hnf : NoFailures envOk :=
    ⟨rfl, rfl, fun _ _ => rfl, fun _ _ => rfl, fun _ _ => rfl, fun _ _ => rfl,
     fun _ _ => rfl, fun _ => rfl⟩
  exact ⟨hnf, rfl, by decide,
    (c2_success Mode.guided envOk "w2" "p" (runN 3) hnf rfl (by decide)).2.2.2.1⟩

/-- C5 counterexample: a run that fails (ledger progress update down on
    iteration 1, retries exhausted) is marked failed with error text and an
    incremented retry count, but the failure path does not store the elapsed
    duration: duration_seconds is still unset afterwards (markFailed's UPDATE
    omits the column). -/
theorem c5_counterexample :
    (processEvolution Mode.guided envProgressFail "e5" "p5" run1).row.status
        = Status.failed ∧
    (processEvolution Mode.guided envProgressFail "e5" "p5" run1).row.error_message
        ≠ none ∧
    (processEvolution Mode.guided envProgressFail "e5" "p5" run1).row.retry_count = 1 ∧
    (processEvolution Mode.guided envProgressFail "e5" "p5" run1).row.durationWritten
        = false := by
  decide

/-- C5 (amended): on early termination (either a failure before the loop or
    exhausted retries at some iteration), the terminal ledger write marks the
    run failed and stores the non-empty error text and an incremented
    whole-run retry count — but not the elapsed duration, which remains
    unset: markFailed does not write duration_seconds. -/
theorem c5_failure_ledger (mode : Mode) (env : Env) (eid pid : String)
    (run : RunRow) (hcur : run.current_iteration = 0)
    (hdw : run.durationWritten = false) (k : Nat) (msg : String)
    (hout : (processEvolution mode env eid pid run).outcome = Outcome.failedAt k msg ∨
      (processEvolution mode env eid pid run).outcome = Outcome.failedSetup msg) :
    (processEvolution mode env eid pid run).row.status = Status.failed ∧
    (processEvolution mode env eid pid run).row.error_message = some msg ∧
    msg ≠ "" ∧
    (processEvolution mode env eid pid run).row.retry_count = run.retry_count + 1 ∧
    (processEvolution mode env eid pid run).row.durationWritten = false := by
  obtain ⟨-, h2, h3, -, -⟩ := processEvolution_spec mode env eid pid run _ hcur rfl
  rcases hout with hout | hout
  · obtain ⟨-, -, ⟨e3, he3⟩, -, -, hst, herr, hrc, hdur⟩ := h2 k msg hout
    refine ⟨hst, herr, ?_, hrc, by rw [hdur, hdw]⟩
    rw [he3]
    exact prepended_ne_empty "Failed after 3 retries: " e3 (by decide)
  · obtain ⟨-, hst, herr, hne, hrc, hdur, -⟩ := h3 msg hout
    exact ⟨hst, herr, hne, hrc, by rw [hdur, hdw]⟩

theorem c5_failure_ledger_witness :
    run1.current_iteration = 0 ∧ run1.durationWritten = false ∧
    (processEvolution Mode.guided envNoPhoto "w5" "p" run1).row.durationWritten
      = false :=
  ⟨rfl, rfl,
    (c5_failure_ledger Mode.guided envNoPhoto "w5" "p" run1 rfl rfl 0
      ("Source photo " ++ "p" ++ " not found") (Or.inr (by decide))).2.2.2.2⟩

/-- C10: whenever processEvolution returns status failed, the returned result
    reports framesGenerated = 0 regardless of how many frames were persisted;
    whenever it returns status completed, framesGenerated equals the run's
    total_iterations.  Holds in both modes. -/
theorem c10_framesGenerated (mode : Mode) (env : Env) (eid pid : String)
    (run : RunRow) :
    ((processEvolution mode env eid pid run).result.status = ResultStatus.failed →
      (processEvolution mode env eid pid run).result.framesGenerated = 0) ∧
    ((processEvolution mode env eid pid run).result.status = ResultStatus.completed →
      (processEvolution mode env eid pid run).result.framesGenerated
        = run.total_iterations) := by
  unfold processEvolution
  cases hpe : env.photoExists with
  | false =>
    exact ⟨fun _ => rfl, fun hc => absurd hc (by simp)⟩
  | true =>
    cases hdl : env.downloadFail with
    | some e =>
      exact ⟨fun _ => rfl, fun hc => absurd hc (by simp)⟩
    | none =>
      dsimp only
      rcases hR : runLoop mode env eid run.total_iterations 1 run.total_iterations
          { frames := [], row := updateStatus run Status.processing,
            prevImage := env.sourcePhoto, prevPrompt := none }
        with ⟨evE, lsE, rr⟩
      cases rr with
      | none =>
        exact ⟨fun hc => absurd hc (by simp), fun _ => rfl⟩
      | some ke =>
        rcases ke with ⟨k, e⟩
        exact ⟨fun _ => rfl, fun hc => absurd hc (by simp)⟩

theorem c10_framesGenerated_witness :
    (processEvolution Mode.guided envProgressFail "w10" "p" run1).result.status
        = ResultStatus.failed ∧
    1 ∈ framesIters (processEvolution Mode.guided envProgressFail "w10" "p" run1).frames ∧
    (processEvolution Mode.guided envProgressFail "w10" "p" run1).result.framesGenerated
        = 0 :=
  ⟨by decide, by decide,
    (c10_framesGenerated Mode.guided envProgressFail "w10" "p" run1).1 (by decide)⟩


theorem persistOrdered_append (t1 : List Event) :
    ∀ (up cr : List Nat) (t2 : List Event),
      persistOrdered up cr (t1 ++ t2)
        = (persistOrdered up cr t1 && persistOrdered (pushUps t1 up) (pushCrs t1 cr) t2) := by
  induction t1 with
  | nil => intro up cr t2; simp [persistOrdered, pushUps, pushCrs]
  | cons e t ih =>
    intro up cr t2
    cases e <;> simp [persistOrdered, pushUps, pushCrs, ih, Bool.and_assoc]

theorem retryWaitsOk_append (t1 t2 : List Event) :
    retryWaitsOk (t1 ++ t2) = (retryWaitsOk t1 && retryWaitsOk t2) := by
  induction t1 with
  | nil => simp [retryWaitsOk]
  | cons e t ih =>
    cases e <;> simp [retryWaitsOk, ih, Bool.and_assoc]

theorem countRetryWait_append (j : Nat) (t1 t2 : List Event) :
    countRetryWait j (t1 ++ t2) = countRetryWait j t1 + countRetryWait j t2 := by
  induction t1 with
  | nil => simp [countRetryWait]
  | cons e t ih =>
    cases e <;> simp [countRetryWait, ih] <;> omega

theorem iterStarts_append (t1 t2 : List Event) :
    iterStarts (t1 ++ t2) = iterStarts t1 ++ iterStarts t2 := by
  induction t1 with
  | nil => simp [iterStarts]
  | cons e t ih =>
    cases e <;> simp [iterStarts, ih]

theorem statusWrites_append (t1 t2 : List Event) :
    statusWrites (t1 ++ t2) = statusWrites t1 ++ statusWrites t2 := by
  induction t1 with
  | nil => simp [statusWrites]
  | cons e t ih =>
    cases e <;> simp [statusWrites, ih]

theorem llmCallCount_append (t1 t2 : List Event) :
    llmCallCount (t1 ++ t2) = llmCallCount t1 + llmCallCount t2 := by
  induction t1 with
  | nil => simp [llmCallCount]
  | cons e t ih =>
    cases e <;> simp [llmCallCount, ih] <;> omega

theorem imageCallsAspectOk_append (t1 t2 : List Event) :
    imageCallsAspectOk (t1 ++ t2) = (imageCallsAspectOk t1 && imageCallsAspectOk t2) := by
  induction t1 with
  | nil => simp [imageCallsAspectOk]
  | cons e t ih =>
    cases e <;> simp [imageCallsAspectOk, ih, Bool.and_assoc]

theorem imageCallSources_append (t1 t2 : List Event) :
    imageCallSources (t1 ++ t2) = imageCallSources t1 ++ imageCallSources t2 := by
  induction t1 with
  | nil => simp [imageCallSources]
  | cons e t ih =>
    cases e <;> simp [imageCallSources, ih]

theorem imageCallPrompts_append (t1 t2 : List Event) :
    imageCallPrompts (t1 ++ t2) = imageCallPrompts t1 ++ imageCallPrompts t2 := by
  induction t1 with
  | nil => simp [imageCallPrompts]
  | cons e t ih =>
    cases e <;> simp [imageCallPrompts, ih]

theorem ChunkOk_nil (mode : Mode) : ChunkOk mode [] := by
  refine ⟨?_, ?_, ?_, ?_, ?_, ?_, ?_, ?_⟩ <;>
    simp [persistOrdered, retryWaitsOk, statusWrites, llmCallCount,
      imageCallsAspectOk, imageCallSources, imageCallPrompts]

theorem ChunkOk_append (mode : Mode) (t1 t2 : List Event)
    (h1 : ChunkOk mode t1) (h2 : ChunkOk mode t2) : ChunkOk mode (t1 ++ t2) := by
  obtain ⟨a1, b1, c1, d1, e1, f1, g1, i1⟩ := h1
  obtain ⟨a2, b2, c2, d2, e2, f2, g2, i2⟩ := h2
  refine ⟨?_, ?_, ?_, ?_, ?_, ?_, ?_, ?_⟩
  · intro up cr
    rw [persistOrdered_append, a1, a2]
    rfl
  · rw [retryWaitsOk_append, b1, b2]
    rfl
  · rw [statusWrites_append, c1, c2]
    rfl
  · intro hm
    rw [llmCallCount_append, d1 hm, d2 hm]
  · rw [imageCallsAspectOk_append, e1, e2]
    rfl
  · intro hm x hx
    rw [imageCallSources_append, List.mem_append] at hx
    rcases hx with hx | hx
    · exact f1 hm x hx
    · exact f2 hm x hx
  · intro hm x hx
    rw [imageCallSources_append, List.mem_append] at hx
    rcases hx with hx | hx
    · exact g1 hm x hx
    · exact g2 hm x hx
  · intro hm p hp
    rw [imageCallPrompts_append, List.mem_append] at hp
    rcases hp with hp | hp
    · exact i1 hm p hp
    · exact i2 hm p hp

theorem persistFrame_events (env : Env) (eid : String) (i a : Nat) (p : String)
    (s : Option Nat) (ls : LState) (ev : List Event) (ls' : LState)
    (r : Option String) (h : persistFrame env eid i a p s ls = (ev, ls', r)) :
    ev = [Event.imageCall p s "1:1"] ∨
    ev = [Event.imageCall p s "1:1", Event.frameUploaded i] ∨
    ev = [Event.imageCall p s "1:1", Event.frameUploaded i, Event.frameCreated i] ∨
    ev = [Event.imageCall p s "1:1", Event.frameUploaded i, Event.frameCreated i,
          Event.progressAdvanced i] := by
  unfold persistFrame at h
  cases h1 : env.imageFail i a <;> simp only [h1, Prod.mk.injEq] at h
  case some e => exact Or.inl h.1.symm
  case none =>
  cases h2 : env.uploadFail i a <;> simp only [h2, Prod.mk.injEq] at h
  case some e => exact Or.inl h.1.symm
  case none =>
  cases h3 : env.createFail i a <;> simp only [h3, Prod.mk.injEq] at h
  case some e => exact Or.inr (Or.inl h.1.symm)
  case none =>
  cases h4 : (ls.frames.any fun g => g.iteration_number == i) <;>
    simp only [h4, if_true, if_false, Bool.false_eq_true, Prod.mk.injEq] at h
  case true => exact Or.inr (Or.inl h.1.symm)
  case false =>
  cases h5 : env.progressFail i a <;> simp only [h5, Prod.mk.injEq] at h
  case some e => exact Or.inr (Or.inr (Or.inl h.1.symm))
  case none => exact Or.inr (Or.inr (Or.inr h.1.symm))

theorem persistFrame_chunk (mode : Mode) (env : Env) (eid : String) (i a : Nat)
    (p : String) (s : Option Nat) (ls : LState) (ev : List Event) (ls' : LState)
    (r : Option String) (h : persistFrame env eid i a p s ls = (ev, ls', r))
    (hg : mode = Mode.guided → s = none)
    (hf : mode = Mode.fixed → (∃ y, s = some y) ∧ p = STATIC_PROMPT) :
    ChunkOk mode ev ∧ iterStarts ev = [] ∧ (∀ j, countRetryWait j ev = 0) := by
  have hsh := persistFrame_events env eid i a p s ls ev ls' r h
  rcases hsh with hsh | hsh | hsh | hsh <;> subst hsh <;>
    refine ⟨⟨?_, ?_, ?_, ?_, ?_, ?_, ?_, ?_⟩, ?_, ?_⟩ <;>
    simp [persistOrdered, retryWaitsOk, statusWrites, llmCallCount,
      imageCallsAspectOk, imageCallSources, imageCallPrompts, iterStarts,
      countRetryWait] <;>
    first
    | (intro hm; exact hg hm)
    | (intro hm; exact (hf hm).1)
    | (intro hm; exact (hf hm).2.symm)
    | (intro hm; exact (hf hm).2)
    | skip


theorem ChunkOk_cons_iterStart (mode : Mode) (i : Nat) (t : List Event)
    (h : ChunkOk mode t) : ChunkOk mode (Event.iterStart i :: t) := by
  obtain ⟨a, b, c, d, e, f, g, j⟩ := h
  exact ⟨fun up cr => by simp [persistOrdered, a up cr],
    by simp [retryWaitsOk, b], by simp [statusWrites, c],
    fun hm => by simp [llmCallCount, d hm],
    by simp [imageCallsAspectOk, e],
    fun hm => by simpa [imageCallSources] using f hm,
    fun hm => by simpa [imageCallSources] using g hm,
    fun hm => by simpa [imageCallPrompts] using j hm⟩

theorem ChunkOk_llm (mode : Mode) (x i : Nat) (pp : Option String)
    (hm : mode = Mode.guided) : ChunkOk mode [Event.llmCall x i pp] := by
  subst hm
  refine ⟨?_, ?_, ?_, ?_, ?_, ?_, ?_, ?_⟩ <;>
    simp [persistOrdered, retryWaitsOk, statusWrites, llmCallCount,
      imageCallsAspectOk, imageCallSources, imageCallPrompts]

theorem finishFirst_chunk (mode : Mode) (env : Env) (total i : Nat) (p : String)
    (s : Option Nat) (ev0 : List Event) (ls : LState) (r : Option String)
    (ev' : List Event) (ls' : LState) (r' : Option String)
    (h : finishFirst env total i p s ev0 ls r = (ev', ls', r')) :
    ∃ rest, ev' = ev0 ++ rest ∧ ChunkOk mode rest ∧ iterStarts rest = [] ∧
      ∀ j, countRetryWait j rest = 0 := by
  unfold finishFirst at h
  cases r with
  | some e =>
    simp only [Prod.mk.injEq] at h
    refine ⟨[], by simp [h.1.symm], ChunkOk_nil mode, by simp [iterStarts],
      fun j => by simp [countRetryWait]⟩
  | none =>
    cases hj : env.jobProgressFail i <;> simp only [hj, Prod.mk.injEq] at h
    case some e =>
      refine ⟨[], by simp [h.1.symm], ChunkOk_nil mode, by simp [iterStarts],
        fun j => by simp [countRetryWait]⟩
    case none =>
      refine ⟨[Event.jobProgress i total] ++ (if i < total then [Event.interWait 1000] else []),
        by rw [← h.1]; simp, ?_, ?_, ?_⟩
      · by_cases hlt : i < total <;>
          simp only [hlt, if_true, if_false] <;>
          refine ⟨?_, ?_, ?_, ?_, ?_, ?_, ?_, ?_⟩ <;>
          simp [persistOrdered, retryWaitsOk, statusWrites, llmCallCount,
            imageCallsAspectOk, imageCallSources, imageCallPrompts]
      · by_cases hlt : i < total <;> simp [hlt, iterStarts]
      · intro j
        by_cases hlt : i < total <;> simp [hlt, countRetryWait]

theorem firstAttempt_chunk (mode : Mode) (env : Env) (eid : String)
    (total i : Nat) (ls : LState) (ev : List Event) (ls' : LState)
    (r : Option String) (h : firstAttempt mode env eid total i ls = (ev, ls', r)) :
    ChunkOk mode ev ∧ iterStarts ev = [] ∧ ∀ j, countRetryWait j ev = 0 := by
  cases mode with
  | guided =>
    unfold firstAttempt at h
    cases hl : env.llmFail i 0 <;> simp only [hl] at h
    case some e =>
      simp only [Prod.mk.injEq] at h
      rw [← h.1]
      exact ⟨ChunkOk_llm Mode.guided _ _ _ rfl, by simp [iterStarts],
        fun j => by simp [countRetryWait]⟩
    case none =>
      rcases hp : persistFrame env eid i 0 (env.llmGen ls.prevImage i ls.prevPrompt)
          none { ls with prevPrompt := some (env.llmGen ls.prevImage i ls.prevPrompt) }
        with ⟨ev1, ls2, r1⟩
      rw [hp] at h
      rcases hff : finishFirst env total i (env.llmGen ls.prevImage i ls.prevPrompt)
          none ev1 ls2 r1 with ⟨ev2, ls3, r2⟩
      rw [hff] at h
      simp only [Prod.mk.injEq] at h
      obtain ⟨hck, his, hcw⟩ :=
        persistFrame_chunk Mode.guided _ _ _ _ _ _ _ _ _ _ hp
          (fun _ => rfl) (fun hm => nomatch hm)
      obtain ⟨rest, hre, hrc, hri, hrw⟩ :=
        finishFirst_chunk Mode.guided _ _ _ _ _ _ _ _ _ _ _ hff
      rw [← h.1, hre]
      refine ⟨?_, ?_, ?_⟩
      · exact ChunkOk_append _ _ _ (ChunkOk_llm Mode.guided _ _ _ rfl)
          (ChunkOk_append _ _ _ hck hrc)
      · rw [iterStarts_append, iterStarts_append]
        simp [iterStarts, hri, his]
      · intro j
        rw [countRetryWait_append, countRetryWait_append]
        simp [countRetryWait, hrw, hcw]
  | fixed =>
    unfold firstAttempt at h
    rcases hp : persistFrame env eid i 0 STATIC_PROMPT (some ls.prevImage) ls
      with ⟨ev1, ls2, r1⟩
    rw [hp] at h
    obtain ⟨hck, his, hcw⟩ :=
      persistFrame_chunk Mode.fixed _ _ _ _ _ _ _ _ _ _ hp
        (fun hm => nomatch hm) (fun _ => ⟨⟨ls.prevImage, rfl⟩, rfl⟩)
    obtain ⟨rest, hre, hrc, hri, hrw⟩ :=
      finishFirst_chunk Mode.fixed _ _ _ _ _ _ _ _ _ _ _ h
    rw [hre]
    refine ⟨?_, ?_, ?_⟩
    · exact ChunkOk_append _ _ _ hck hrc
    · rw [iterStarts_append]
      simp [hri, his]
    · intro j
      rw [countRetryWait_append]
      simp [hrw, hcw]


theorem ChunkOk_retryWait (mode : Mode) (i a : Nat) (ha1 : 1 ≤ a) (ha3 : a ≤ 3) :
    ChunkOk mode [Event.retryWait i a (2000 * a)] := by
  refine ⟨?_, ?_, ?_, ?_, ?_, ?_, ?_, ?_⟩ <;>
    simp [persistOrdered, retryWaitsOk, statusWrites, llmCallCount,
      imageCallsAspectOk, imageCallSources, imageCallPrompts,
      decide_eq_true_eq] <;>
    omega

theorem retryAttempt_chunk (mode : Mode) (env : Env) (eid : String) (i a : Nat)
    (ls : LState) (ev : List Event) (ls' : LState) (r : Option String)
    (ha1 : 1 ≤ a) (ha3 : a ≤ 3)
    (h : retryAttempt mode env eid i a ls = (ev, ls', r)) :
    ChunkOk mode ev ∧ iterStarts ev = [] ∧
    (∀ j, countRetryWait j ev = if j = i then 1 else 0) := by
  cases mode with
  | guided =>
    unfold retryAttempt at h
    cases hl : env.llmFail i a <;> simp only [hl] at h
    case some e =>
      simp only [Prod.mk.injEq] at h
      rw [← h.1]
      refine ⟨ChunkOk_append _ _ _ (ChunkOk_retryWait Mode.guided i a ha1 ha3)
        (ChunkOk_llm Mode.guided _ _ _ rfl), by simp [iterStarts], ?_⟩
      intro j
      by_cases hj : j = i <;> simp [countRetryWait, hj] <;> omega
    case none =>
      rcases hp : persistFrame env eid i a (env.llmGen ls.prevImage i ls.prevPrompt)
          none ls with ⟨ev2, ls2, r1⟩
      rw [hp] at h
      obtain ⟨hck, his, hcw⟩ :=
        persistFrame_chunk Mode.guided _ _ _ _ _ _ _ _ _ _ hp
          (fun _ => rfl) (fun hm => nomatch hm)
      have hev : ev = [Event.retryWait i a (2000 * a)] ++ [Event.llmCall ls.prevImage i ls.prevPrompt] ++ ev2 := by
        cases r1 with
        | none =>
          dsimp only at h
          simp only [Prod.mk.injEq] at h
          rw [← h.1]
        | some e1 =>
          dsimp only at h
          simp only [Prod.mk.injEq] at h
          rw [← h.1]
      subst hev
      refine ⟨ChunkOk_append _ _ _ (ChunkOk_append _ _ _
          (ChunkOk_retryWait Mode.guided i a ha1 ha3)
          (ChunkOk_llm Mode.guided _ _ _ rfl)) hck, ?_, ?_⟩
      · rw [iterStarts_append]
        simp [iterStarts, his]
      · intro j
        rw [countRetryWait_append, countRetryWait_append]
        by_cases hj : j = i <;> simp [countRetryWait, hj, hcw] <;> omega
  | fixed =>
    unfold retryAttempt at h
    rcases hp : persistFrame env eid i a STATIC_PROMPT (some ls.prevImage) ls
      with ⟨ev2, ls2, r1⟩
    rw [hp] at h
    obtain ⟨hck, his, hcw⟩ :=
      persistFrame_chunk Mode.fixed _ _ _ _ _ _ _ _ _ _ hp
        (fun hm => nomatch hm) (fun _ => ⟨⟨ls.prevImage, rfl⟩, rfl⟩)
    have hev : ev = [Event.retryWait i a (2000 * a)] ++ ev2 := by
      cases r1 with
      | none =>
        dsimp only at h
        simp only [Prod.mk.injEq] at h
        rw [← h.1]
      | some e1 =>
        dsimp only at h
        simp only [Prod.mk.injEq] at h
        rw [← h.1]
    subst hev
    refine ⟨ChunkOk_append _ _ _ (ChunkOk_retryWait Mode.fixed i a ha1 ha3) hck,
      ?_, ?_⟩
    · rw [iterStarts_append]
      simp [iterStarts, his]
    · intro j
      rw [countRetryWait_append]
      by_cases hj : j = i <;> simp [countRetryWait, hj, hcw] <;> omega

theorem retryLoop_chunk (mode : Mode) (env : Env) (eid : String) (i : Nat)
    (ls : LState) (ev : List Event) (ls' : LState) (r : Option String)
    (h : retryLoop mode env eid i ls = (ev, ls', r)) :
    ChunkOk mode ev ∧ iterStarts ev = [] ∧
    (∀ j, j ≠ i → countRetryWait j ev = 0) ∧
    countRetryWait i ev ≤ 3 ∧
    (r ≠ none → countRetryWait i ev = 3) := by
  unfold retryLoop at h
  rcases h1 : retryAttempt mode env eid i 1 ls with ⟨ev1, ls1, r1⟩
  rw [h1] at h
  obtain ⟨ck1, is1, cw1⟩ := retryAttempt_chunk _ _ _ _ _ _ _ _ _
    (by omega) (by omega) h1
  cases r1 with
  | none =>
    simp only [Prod.mk.injEq] at h
    rw [← h.1]
    refine ⟨ck1, is1, ?_, ?_, ?_⟩
    · intro j hj
      simp [cw1, hj]
    · simp [cw1]
    · intro hc
      exact absurd h.2.2.symm hc
  | some e1 =>
    dsimp only at h
    rcases h2 : retryAttempt mode env eid i 2 ls1 with ⟨ev2, ls2, r2⟩
    rw [h2] at h
    obtain ⟨ck2, is2, cw2⟩ := retryAttempt_chunk _ _ _ _ _ _ _ _ _
      (by omega) (by omega) h2
    cases r2 with
    | none =>
      simp only [Prod.mk.injEq] at h
      rw [← h.1]
      refine ⟨ChunkOk_append _ _ _ ck1 ck2, ?_, ?_, ?_, ?_⟩
      · rw [iterStarts_append, is1, is2]; rfl
      · intro j hj
        rw [countRetryWait_append]
        simp [cw1, cw2, hj]
      · rw [countRetryWait_append]
        simp [cw1, cw2]
      · intro hc
        exact absurd h.2.2.symm hc
    | some e2 =>
      dsimp only at h
      rcases h3 : retryAttempt mode env eid i 3 ls2 with ⟨ev3, ls3, r3⟩
      rw [h3] at h
      obtain ⟨ck3, is3, cw3⟩ := retryAttempt_chunk _ _ _ _ _ _ _ _ _
        (by omega) (by omega) h3
      have hev : ev = ev1 ++ ev2 ++ ev3 := by
        cases r3 <;> simp only [Prod.mk.injEq] at h <;> rw [← h.1]
      have hck : ChunkOk mode ev := by
        rw [hev]
        exact ChunkOk_append _ _ _ (ChunkOk_append _ _ _ ck1 ck2) ck3
      have his : iterStarts ev = [] := by
        rw [hev, iterStarts_append, iterStarts_append, is1, is2, is3]
        rfl
      have hcj : ∀ j, j ≠ i → countRetryWait j ev = 0 := by
        intro j hj
        rw [hev, countRetryWait_append, countRetryWait_append]
        simp [cw1, cw2, cw3, hj]
      have hci : countRetryWait i ev = 3 := by
        rw [hev, countRetryWait_append, countRetryWait_append]
        simp [cw1, cw2, cw3]
      exact ⟨hck, his, hcj, by omega, fun _ => hci⟩

theorem runIteration_chunk (mode : Mode) (env : Env) (eid : String)
    (total i : Nat) (ls : LState) (ev : List Event) (ls' : LState)
    (r : Option String) (h : runIteration mode env eid total i ls = (ev, ls', r)) :
    ChunkOk mode ev ∧ iterStarts ev = [i] ∧
    (∀ j, j ≠ i → countRetryWait j ev = 0) ∧
    countRetryWait i ev ≤ 3 ∧
    (r ≠ none → countRetryWait i ev = 3) := by
  unfold runIteration at h
  rcases h0 : firstAttempt mode env eid total i ls with ⟨ev0, ls1, r0⟩
  rw [h0] at h
  obtain ⟨ck0, is0, cw0⟩ := firstAttempt_chunk _ _ _ _ _ _ _ _ _ h0
  cases r0 with
  | none =>
    simp only [Prod.mk.injEq] at h
    rw [← h.1]
    refine ⟨ChunkOk_cons_iterStart _ _ _ ck0, by simp [iterStarts, is0], ?_, ?_, ?_⟩
    · intro j hj
      simp [countRetryWait, cw0]
    · simp [countRetryWait, cw0]
    · intro hc
      exact absurd h.2.2.symm hc
  | some e0 =>
    dsimp only at h
    rcases hL : retryLoop mode env eid i ls1 with ⟨evL, ls2, rL⟩
    rw [hL] at h
    obtain ⟨ckL, isL, cjL, ciL, cfL⟩ := retryLoop_chunk _ _ _ _ _ _ _ _ hL
    simp only [Prod.mk.injEq] at h
    rw [← h.1]
    refine ⟨ChunkOk_cons_iterStart _ _ _ (ChunkOk_append _ _ _ ck0 ckL),
      ?_, ?_, ?_, ?_⟩
    · simp [iterStarts, iterStarts_append, is0, isL]
    · intro j hj
      simp [countRetryWait, countRetryWait_append, cw0, cjL j hj]
    · simp [countRetryWait, countRetryWait_append, cw0]
      omega
    · intro hc
      have := cfL (by rw [h.2.2]; exact hc)
      simp [countRetryWait, countRetryWait_append, cw0, this]


theorem runLoop_trace (mode : Mode) (env : Env) (eid : String) (total : Nat) :
    ∀ (rem i : Nat) (ls : LState) (ev : List Event) (ls' : LState)
      (r : Option (Nat × String)),
      runLoop mode env eid total i rem ls = (ev, ls', r) →
      ChunkOk mode ev ∧
      (∀ j, j < i → countRetryWait j ev = 0) ∧
      (∀ j, countRetryWait j ev ≤ 3) ∧
      (r = none → iterStarts ev = List.range' i rem) ∧
      (∀ k e, r = some (k, e) →
        i ≤ k ∧ iterStarts ev = List.range' i (k + 1 - i) ∧
        countRetryWait k ev = 3) := by
  intro rem
  induction rem with
  | zero =>
    intro i ls ev ls' r h
    simp only [runLoop, Prod.mk.injEq] at h
    obtain ⟨h1, -, h2⟩ := h
    subst h1; subst h2
    exact ⟨ChunkOk_nil mode, fun j _ => rfl, fun j => by simp [countRetryWait],
      fun _ => rfl, fun k e hk => nomatch hk⟩
  | succ rem ih =>
    intro i ls ev ls' r h
    simp only [runLoop] at h
    rcases hI : runIteration mode env eid total i ls with ⟨evI, ls1, rI⟩
    rw [hI] at h
    obtain ⟨ckI, isI, cjI, ciI, cfI⟩ := runIteration_chunk _ _ _ _ _ _ _ _ _ hI
    cases rI with
    | none =>
      dsimp only at h
      rcases hR : runLoop mode env eid total (i + 1) rem ls1 with ⟨ev2, ls2, r2⟩
      rw [hR] at h
      dsimp only at h
      simp only [Prod.mk.injEq] at h
      obtain ⟨h1, -, h2⟩ := h
      subst h1; subst h2
      obtain ⟨ck2, cl2, cb2, in2, if2⟩ := ih (i + 1) ls1 ev2 ls2 r2 hR
      refine ⟨ChunkOk_append _ _ _ ckI ck2, ?_, ?_, ?_, ?_⟩
      · intro j hj
        rw [countRetryWait_append, cjI j (by omega), cl2 j (by omega)]
      · intro j
        rw [countRetryWait_append]
        by_cases hj : j = i
        · subst hj
          rw [cl2 j (by omega)]
          omega
        · rw [cjI j hj]
          have := cb2 j
          omega
      · intro hr2
        rw [iterStarts_append, isI, in2 hr2, List.range'_succ]
        rfl
      · intro k e hk
        obtain ⟨hik, hit, hcr⟩ := if2 k e hk
        refine ⟨by omega, ?_, ?_⟩
        · rw [iterStarts_append, isI, hit]
          have harith : k + 1 - i = (k + 1 - (i + 1)) + 1 := by omega
          rw [harith, List.range'_succ]
          rfl
        · rw [countRetryWait_append, cjI k (by omega), hcr]
    | some e =>
      dsimp only at h
      simp only [Prod.mk.injEq] at h
      obtain ⟨h1, -, h2⟩ := h
      subst h1; subst h2
      refine ⟨ckI, ?_, ?_, ?_, ?_⟩
      · intro j hj
        exact cjI j (by omega)
      · intro j
        by_cases hj : j = i
        · subst hj; exact ciI
        · rw [cjI j hj]; omega
      · intro hc
        exact absurd hc (by simp)
      · intro k e' hk
        simp only [Option.some.injEq, Prod.mk.injEq] at hk
        obtain ⟨hk1, -⟩ := hk
        have hik : i = k := hk1
        subst hik
        refine ⟨le_refl i, ?_, cfI (by simp)⟩
        have harith : i + 1 - i = 1 := by omega
        rw [harith, isI]
        rfl


theorem processEvolution_trace (mode : Mode) (env : Env) (eid pid : String)
    (run : RunRow) (F : Final) (h : processEvolution mode env eid pid run = F) :
    (∀ up cr, persistOrdered up cr F.trace = true) ∧
    retryWaitsOk F.trace = true ∧
    (∀ j, countRetryWait j F.trace ≤ 3) ∧
    (F.outcome = Outcome.completed →
      statusWrites F.trace = [Status.processing, Status.completed] ∧
      iterStarts F.trace = List.range' 1 run.total_iterations) ∧
    (∀ k msg, F.outcome = Outcome.failedAt k msg →
      statusWrites F.trace = [Status.processing, Status.failed] ∧
      iterStarts F.trace = List.range' 1 k ∧
      countRetryWait k F.trace = 3) ∧
    (∀ msg, F.outcome = Outcome.failedSetup msg →
      statusWrites F.trace = [Status.failed] ∧ iterStarts F.trace = []) ∧
    (mode = Mode.fixed → llmCallCount F.trace = 0) ∧
    imageCallsAspectOk F.trace = true ∧
    (mode = Mode.guided → ∀ x ∈ imageCallSources F.trace, x = none) ∧
    (mode = Mode.fixed → ∀ x ∈ imageCallSources F.trace, ∃ y, x = some y) ∧
    (mode = Mode.fixed → ∀ p ∈ imageCallPrompts F.trace, p = STATIC_PROMPT) := by
  unfold processEvolution at h
  cases hpe : env.photoExists with
  | false =>
    simp only [hpe] at h
    subst h
    refine ⟨fun up cr => by simp [persistOrdered], by simp [retryWaitsOk],
      fun j => by simp [countRetryWait], ?_, ?_, ?_, ?_, ?_, ?_, ?_, ?_⟩ <;>
      simp [statusWrites, iterStarts, llmCallCount, imageCallsAspectOk,
        imageCallSources, imageCallPrompts]
  | true =>
    simp only [hpe] at h
    cases hdl : env.downloadFail with
    | some e =>
      rw [hdl] at h
      dsimp only at h
      subst h
      refine ⟨fun up cr => by simp [persistOrdered], by simp [retryWaitsOk],
        fun j => by simp [countRetryWait], ?_, ?_, ?_, ?_, ?_, ?_, ?_, ?_⟩ <;>
        simp [statusWrites, iterStarts, llmCallCount, imageCallsAspectOk,
          imageCallSources, imageCallPrompts]
    | none =>
      rw [hdl] at h
      dsimp only at h
      rcases hR : runLoop mode env eid run.total_iterations 1 run.total_iterations
          { frames := [], row := updateStatus run Status.processing,
            prevImage := env.sourcePhoto, prevPrompt := none }
        with ⟨evE, lsE, rr⟩
      rw [hR] at h
      obtain ⟨ckE, clE, cbE, inE, ifE⟩ := runLoop_trace mode env eid
        run.total_iterations run.total_iterations 1 _ _ _ _ hR
      obtain ⟨poE, rwE, swE, llE, acE, sgE, sfE, spE⟩ := ckE
      cases rr with
      | none =>
        dsimp only at h
        subst h
        have hin := inE rfl
        refine ⟨?_, ?_, ?_, ?_, ?_, ?_, ?_, ?_, ?_, ?_, ?_⟩
        · intro up cr
          show persistOrdered up cr (Event.statusWrite Status.processing ::
            (evE ++ [Event.statusWrite Status.completed])) = true
          simp only [persistOrdered]
          rw [persistOrdered_append, poE]
          simp [persistOrdered]
        · show retryWaitsOk (Event.statusWrite Status.processing ::
            (evE ++ [Event.statusWrite Status.completed])) = true
          simp only [retryWaitsOk]
          rw [retryWaitsOk_append, rwE]
          simp [retryWaitsOk]
        · intro j
          show countRetryWait j (Event.statusWrite Status.processing ::
            (evE ++ [Event.statusWrite Status.completed])) ≤ 3
          simp only [countRetryWait]
          rw [countRetryWait_append]
          have := cbE j
          simp [countRetryWait]
          omega
        · intro _
          constructor
          · show statusWrites (Event.statusWrite Status.processing ::
              (evE ++ [Event.statusWrite Status.completed]))
                = [Status.processing, Status.completed]
            simp only [statusWrites]
            rw [statusWrites_append, swE]
            rfl
          · show iterStarts (Event.statusWrite Status.processing ::
              (evE ++ [Event.statusWrite Status.completed]))
                = List.range' 1 run.total_iterations
            simp only [iterStarts]
            rw [iterStarts_append, hin]
            simp [iterStarts]
        · intro k msg hc
          exact absurd hc (by simp)
        · intro msg hc
          exact absurd hc (by simp)
        · intro hm
          show llmCallCount (Event.statusWrite Status.processing ::
            (evE ++ [Event.statusWrite Status.completed])) = 0
          simp only [llmCallCount]
          rw [llmCallCount_append, llE hm]
          simp [llmCallCount]
        · show imageCallsAspectOk (Event.statusWrite Status.processing ::
            (evE ++ [Event.statusWrite Status.completed])) = true
          simp only [imageCallsAspectOk]
          rw [imageCallsAspectOk_append, acE]
          simp [imageCallsAspectOk]
        · intro hm x hx
          apply sgE hm x
          revert hx
          show x ∈ imageCallSources (Event.statusWrite Status.processing ::
            (evE ++ [Event.statusWrite Status.completed])) → _
          simp [imageCallSources, imageCallSources_append]
        · intro hm x hx
          apply sfE hm x
          revert hx
          show x ∈ imageCallSources (Event.statusWrite Status.processing ::
            (evE ++ [Event.statusWrite Status.completed])) → _
          simp [imageCallSources, imageCallSources_append]
        · intro hm p hp
          apply spE hm p
          revert hp
          show p ∈ imageCallPrompts (Event.statusWrite Status.processing ::
            (evE ++ [Event.statusWrite Status.completed])) → _
          simp [imageCallPrompts, imageCallPrompts_append]
      | some ke =>
        rcases ke with ⟨k, e⟩
        dsimp only at h
        subst h
        obtain ⟨hik, hit, hcr⟩ := ifE k e rfl
        have hit' : iterStarts evE = List.range' 1 k := by
          have harith : k + 1 - 1 = k := by omega
          rw [hit, harith]
        refine ⟨?_, ?_, ?_, ?_, ?_, ?_, ?_, ?_, ?_, ?_, ?_⟩
        · intro up cr
          show persistOrdered up cr (Event.statusWrite Status.processing ::
            (evE ++ [Event.statusWrite Status.failed])) = true
          simp only [persistOrdered]
          rw [persistOrdered_append, poE]
          simp [persistOrdered]
        · show retryWaitsOk (Event.statusWrite Status.processing ::
            (evE ++ [Event.statusWrite Status.failed])) = true
          simp only [retryWaitsOk]
          rw [retryWaitsOk_append, rwE]
          simp [retryWaitsOk]
        · intro j
          show countRetryWait j (Event.statusWrite Status.processing ::
            (evE ++ [Event.statusWrite Status.failed])) ≤ 3
          simp only [countRetryWait]
          rw [countRetryWait_append]
          have := cbE j
          simp [countRetryWait]
          omega
        · intro hc
          exact absurd hc (by simp)
        · intro k' msg hmsg
          simp only [Outcome.failedAt.injEq] at hmsg
          obtain ⟨hk, hm⟩ := hmsg
          have hik2 : k = k' := hk
          subst hik2
          subst hm
          refine ⟨?_, ?_, ?_⟩
          · show statusWrites (Event.statusWrite Status.processing ::
              (evE ++ [Event.statusWrite Status.failed]))
                = [Status.processing, Status.failed]
            simp only [statusWrites]
            rw [statusWrites_append, swE]
            rfl
          · show iterStarts (Event.statusWrite Status.processing ::
              (evE ++ [Event.statusWrite Status.failed])) = List.range' 1 k
            simp only [iterStarts]
            rw [iterStarts_append, hit']
            simp [iterStarts]
          · show countRetryWait k (Event.statusWrite Status.processing ::
              (evE ++ [Event.statusWrite Status.failed])) = 3
            simp only [countRetryWait]
            rw [countRetryWait_append, hcr]
            simp [countRetryWait]
        · intro msg hc
          exact absurd hc (by simp)
        · intro hm
          show llmCallCount (Event.statusWrite Status.processing ::
            (evE ++ [Event.statusWrite Status.failed])) = 0
          simp only [llmCallCount]
          rw [llmCallCount_append, llE hm]
          simp [llmCallCount]
        · show imageCallsAspectOk (Event.statusWrite Status.processing ::
            (evE ++ [Event.statusWrite Status.failed])) = true
          simp only [imageCallsAspectOk]
          rw [imageCallsAspectOk_append, acE]
          simp [imageCallsAspectOk]
        · intro hm x hx
          apply sgE hm x
          revert hx
          show x ∈ imageCallSources (Event.statusWrite Status.processing ::
            (evE ++ [Event.statusWrite Status.failed])) → _
          simp [imageCallSources, imageCallSources_append]
        · intro hm x hx
          apply sfE hm x
          revert hx
          show x ∈ imageCallSources (Event.statusWrite Status.processing ::
            (evE ++ [Event.statusWrite Status.failed])) → _
          simp [imageCallSources, imageCallSources_append]
        · intro hm p hp
          apply spE hm p
          revert hp
          show p ∈ imageCallPrompts (Event.statusWrite Status.processing ::
            (evE ++ [Event.statusWrite Status.failed])) → _
          simp [imageCallPrompts, imageCallPrompts_append]


/-- C3: in every execution, in both modes, with any pattern of external-call
    failures, the trace never advances the run ledger's current_iteration to a
    value i unless the frame bytes for i were uploaded to the frame store and
    the frame ledger row for i was inserted strictly earlier in the trace. -/
theorem c3_persist_before_progress (mode : Mode) (env : Env) (eid pid : String)
    (run : RunRow) :
    persistOrdered [] [] (processEvolution mode env eid pid run).trace = true :=
  (processEvolution_trace mode env eid pid run _ rfl).1 [] []

/-- C4: every retry wait is for attempt 1..3 of its iteration with backoff
    delay 2000 ms times the attempt number; no iteration is ever retried more
    than 3 times; iterations are started once each, in order, and a run that
    fails at iteration k started exactly iterations 1..k (none further),
    performed exactly 3 retries of k, and was marked failed with the wrapped
    last error message. -/
theorem c4_retry_policy (mode : Mode) (env : Env) (eid pid : String)
    (run : RunRow) (hcur : run.current_iteration = 0) :
    retryWaitsOk (processEvolution mode env eid pid run).trace = true ∧
    (∀ j, countRetryWait j (processEvolution mode env eid pid run).trace ≤ 3) ∧
    ((processEvolution mode env eid pid run).outcome = Outcome.completed →
      iterStarts (processEvolution mode env eid pid run).trace
        = List.range' 1 run.total_iterations) ∧
    (∀ k msg, (processEvolution mode env eid pid run).outcome = Outcome.failedAt k msg →
      iterStarts (processEvolution mode env eid pid run).trace = List.range' 1 k ∧
      countRetryWait k (processEvolution mode env eid pid run).trace = 3 ∧
      (processEvolution mode env eid pid run).row.status = Status.failed ∧
      (processEvolution mode env eid pid run).row.error_message = some msg ∧
      (∃ e3, msg = "Failed after 3 retries: " ++ e3)) := by
  obtain ⟨-, hrw, hcb, hcm, hfa, -, -, -, -, -, -⟩ :=
    processEvolution_trace mode env eid pid run _ rfl
  obtain ⟨-, h2, -, -, -⟩ := processEvolution_spec mode env eid pid run _ hcur rfl
  refine ⟨hrw, hcb, fun hc => (hcm hc).2, ?_⟩
  intro k msg hout
  obtain ⟨-, hit, hcr⟩ := hfa k msg hout
  obtain ⟨-, -, hex, -, -, hst, herr, -, -⟩ := h2 k msg hout
  exact ⟨hit, hcr, hst, herr, hex⟩

theorem c4_retry_policy_witness :
    run1.current_iteration = 0 ∧
    iterStarts (processEvolution Mode.guided envProgressFail "w4" "p" run1).trace
      = List.range' 1 1 ∧
    countRetryWait 1 (processEvolution Mode.guided envProgressFail "w4" "p" run1).trace
      = 3 := by
  have h4 := (c4_retry_policy Mode.guided envProgressFail "w4" "p" run1 rfl).2.2.2
    1 ("Failed after 3 retries: " ++ dupKeyMsg) (by decide)
  exact ⟨rfl, h4.1, h4.2.1⟩

/-- C9 counterexample: when the source photo row is missing, the run goes
    directly from queued to failed — the only ledger status write of the whole
    execution is the terminal failed write, and processing is never written —
    contradicting the claim that a run never reaches failed without first
    passing through processing. -/
theorem c9_counterexample :
    run1.status = Status.queued ∧
    statusWrites (processEvolution Mode.guided envNoPhoto "e9" "p9" run1).trace
      = [Status.failed] ∧
    (processEvolution Mode.guided envNoPhoto "e9" "p9" run1).row.status
      = Status.failed := by
  decide

/-- C9 (amended): across all ledger operations of one orchestrator execution,
    the status writes are exactly one of: processing then completed,
    processing then failed, or — when the run fails before the loop starts
    (photo missing or source download failure) — a single direct failed write
    from the queued state.  A terminal status is never overwritten. -/
theorem c9_status_transitions (mode : Mode) (env : Env) (eid pid : String)
    (run : RunRow) :
    statusWrites (processEvolution mode env eid pid run).trace
        = [Status.processing, Status.completed] ∨
    statusWrites (processEvolution mode env eid pid run).trace
        = [Status.processing, Status.failed] ∨
    statusWrites (processEvolution mode env eid pid run).trace
        = [Status.failed] := by
  obtain ⟨-, -, -, hcm, hfa, hfs, -, -, -, -, -⟩ :=
    processEvolution_trace mode env eid pid run _ rfl
  cases hout : (processEvolution mode env eid pid run).outcome with
  | completed => exact Or.inl (hcm hout).1
  | failedAt k msg => exact Or.inr (Or.inl (hfa k msg hout).1)
  | failedSetup msg => exact Or.inr (Or.inr (hfs msg hout).1)

theorem runLoop_fixed_prompts (env : Env) (eid : String) (total : Nat) :
    ∀ (rem i : Nat) (ls : LState) (ev : List Event) (ls' : LState)
      (r : Option (Nat × String)),
      runLoop Mode.fixed env eid total i rem ls = (ev, ls', r) →
      (∀ f, f ∈ ls.frames → f.prompt_used = some STATIC_PROMPT) →
      (∀ f, f ∈ ls'.frames → f.prompt_used = some STATIC_PROMPT) := by
  intro rem
  induction rem with
  | zero =>
    intro i ls ev ls' r h hp
    simp only [runLoop, Prod.mk.injEq] at h
    obtain ⟨-, h1, -⟩ := h
    rw [← h1]
    exact hp
  | succ rem ih =>
    intro i ls ev ls' r h hp
    simp only [runLoop] at h
    rcases hI : runIteration Mode.fixed env eid total i ls with ⟨evI, ls1, rI⟩
    rw [hI] at h
    obtain ⟨-, BI, -, -, -⟩ := runIteration_spec _ _ _ _ _ _ _ _ _ hI
    have hp1 : ∀ f, f ∈ ls1.frames → f.prompt_used = some STATIC_PROMPT := by
      rcases BI with hB | ⟨-, f, -, hfp, happ⟩
      · rw [hB]; exact hp
      · intro g hg
        rw [happ, List.mem_append] at hg
        rcases hg with hg | hg
        · exact hp g hg
        · rw [List.mem_singleton] at hg
          rw [hg]
          exact hfp rfl
    cases rI with
    | none =>
      dsimp only at h
      rcases hR : runLoop Mode.fixed env eid total (i + 1) rem ls1 with ⟨ev2, ls2, r2⟩
      rw [hR] at h
      dsimp only at h
      simp only [Prod.mk.injEq] at h
      obtain ⟨-, h1, -⟩ := h
      rw [← h1]
      exact ih (i + 1) ls1 ev2 ls2 r2 hR hp1
    | some e =>
      dsimp only at h
      simp only [Prod.mk.injEq] at h
      obtain ⟨-, h1, -⟩ := h
      rw [← h1]
      exact hp1

/-- C7: in fixed-instruction mode, for every run and every environment, every
    persisted frame records the one constant instruction STATIC_PROMPT as its
    prompt text, and no prompt-derivation (LLM) call is ever made. -/
theorem c7_fixed_static (env : Env) (eid pid : String) (run : RunRow) :
    llmCallCount (processEvolution Mode.fixed env eid pid run).trace = 0 ∧
    ∀ f, f ∈ (processEvolution Mode.fixed env eid pid run).frames →
      f.prompt_used = some STATIC_PROMPT := by
  obtain ⟨-, -, -, -, -, -, hll, -, -, -, -⟩ :=
    processEvolution_trace Mode.fixed env eid pid run _ rfl
  refine ⟨hll rfl, ?_⟩
  show ∀ f, f ∈ (processEvolution Mode.fixed env eid pid run).frames →
      f.prompt_used = some STATIC_PROMPT
  unfold processEvolution
  cases hpe : env.photoExists with
  | false =>
    intro f hf
    exact absurd hf (by simp)
  | true =>
    cases hdl : env.downloadFail with
    | some e =>
      intro f hf
      exact absurd hf (by simp)
    | none =>
      dsimp only
      rcases hR : runLoop Mode.fixed env eid run.total_iterations 1
          run.total_iterations
          { frames := [], row := updateStatus run Status.processing,
            prevImage := env.sourcePhoto, prevPrompt := none }
        with ⟨evE, lsE, rr⟩
      have hfp := runLoop_fixed_prompts env eid run.total_iterations
        run.total_iterations 1 _ _ _ _ hR (fun f hf => absurd hf (by simp))
      cases rr with
      | none => exact hfp
      | some ke =>
        rcases ke with ⟨k, e⟩
        exact hfp

theorem c7_fixed_static_witness :
    llmCallCount (processEvolution Mode.fixed envOk "w7" "p" (runN 2)).trace = 0 ∧
    ∀ f, f ∈ (processEvolution Mode.fixed envOk "w7" "p" (runN 2)).frames →
      f.prompt_used = some STATIC_PROMPT :=
  c7_fixed_static envOk "w7" "p" (runN 2)


theorem firstAttempt_fixed_noFail (env : Env) (eid : String) (total i : Nat)
    (ls : LState) (hnf : NoFailures env) (hha : hasFrame ls.frames i = false) :
    firstAttempt Mode.fixed env eid total i ls =
      ([Event.imageCall STATIC_PROMPT (some ls.prevImage) "1:1",
        Event.frameUploaded i, Event.frameCreated i, Event.progressAdvanced i,
        Event.jobProgress i total]
          ++ (if i < total then [Event.interWait 1000] else []),
       { frames := ls.frames ++ [mkFrame env eid i STATIC_PROMPT (some ls.prevImage)],
         row := updateProgress ls.row i,
         prevImage := env.imageGen STATIC_PROMPT (some ls.prevImage),
         prevPrompt := ls.prevPrompt }, none) := by
  obtain ⟨-, -, -, him, hup, hcr, hpr, hjp⟩ := hnf
  have hha' : (ls.frames.any fun g => g.iteration_number == i) = false := hha
  simp [firstAttempt, persistFrame, finishFirst, him, hup, hcr, hpr, hjp,
    hha', mkFrame, updateProgress]

theorem runLoop_fixed_sources (env : Env) (eid : String) (total : Nat)
    (hnf : NoFailures env) :
    ∀ (rem i : Nat) (ls : LState),
      1 ≤ i →
      framesIters ls.frames = List.range' 1 (i - 1) →
      imageCallSources (runLoop Mode.fixed env eid total i rem ls).1
        = fixedSources env ls.prevImage rem := by
  intro rem
  induction rem with
  | zero =>
    intro i ls hi hfr
    simp [runLoop, imageCallSources, fixedSources]
  | succ rem ih =>
    intro i ls hi hfr
    have hha : hasFrame ls.frames i = false := by
      rw [← Bool.not_eq_true]
      intro hc
      rw [hasFrame_iff_mem, hfr, List.mem_range'_1] at hc
      omega
    have hfa := firstAttempt_fixed_noFail env eid total i ls hnf hha
    simp only [runLoop]
    have hrI : runIteration Mode.fixed env eid total i ls =
        (Event.iterStart i ::
          ([Event.imageCall STATIC_PROMPT (some ls.prevImage) "1:1",
            Event.frameUploaded i, Event.frameCreated i, Event.progressAdvanced i,
            Event.jobProgress i total]
              ++ (if i < total then [Event.interWait 1000] else [])),
         { frames := ls.frames ++ [mkFrame env eid i STATIC_PROMPT (some ls.prevImage)],
           row := updateProgress ls.row i,
           prevImage := env.imageGen STATIC_PROMPT (some ls.prevImage),
           prevPrompt := ls.prevPrompt }, none) := by
      unfold runIteration
      rw [hfa]
    rw [hrI]
    dsimp only
    have hinv1 : framesIters (ls.frames ++ [mkFrame env eid i STATIC_PROMPT
        (some ls.prevImage)]) = List.range' 1 (i + 1 - 1) := by
      rw [framesIters, List.map_append, ← framesIters, hfr]
      have h1 : List.range' 1 (i - 1 + 1) = List.range' 1 (i - 1) ++ [1 + (i - 1)] :=
        range'_concat_one 1 (i - 1)
      have h2 : i - 1 + 1 = i := by omega
      have h3 : 1 + (i - 1) = i := by omega
      rw [h2, h3] at h1
      have h4 : i + 1 - 1 = i := by omega
      rw [h4, h1]
      simp [mkFrame]
    have hih := ih (i + 1)
      { frames := ls.frames ++ [mkFrame env eid i STATIC_PROMPT (some ls.prevImage)],
        row := updateProgress ls.row i,
        prevImage := env.imageGen STATIC_PROMPT (some ls.prevImage),
        prevPrompt := ls.prevPrompt } (by omega) hinv1
    rw [imageCallSources_append, hih]
    by_cases hlt : i < total <;>
      simp [hlt, imageCallSources, fixedSources]

/-- C6 counterexample: in guided mode, even on a fully successful run, the
    image-provider call is made without any img2img source image (the
    sourceImage argument is commented out in the guided processor): the
    provider-call source list of a successful 1-iteration guided run is
    [none], not [some sourcePhoto]. -/
theorem c6_counterexample :
    imageCallSources (processEvolution Mode.guided envOk "e6" "p6" run1).trace
      = [none] ∧
    (processEvolution Mode.guided envOk "e6" "p6" run1).outcome
      = Outcome.completed := by
  decide

/-- C6 (amended): every image-provider call in either mode uses the fixed
    aspect ratio 1:1.  In fixed-instruction mode every call passes the static
    instruction and an img2img source image — on a failure-free run precisely
    the chain source photo, then each previous call's output.  In guided mode
    the call passes the derived instruction but NO img2img source image. -/
theorem c6_image_calls (mode : Mode) (env : Env) (eid pid : String)
    (run : RunRow) :
    imageCallsAspectOk (processEvolution mode env eid pid run).trace = true ∧
    (mode = Mode.guided →
      ∀ x ∈ imageCallSources (processEvolution mode env eid pid run).trace,
        x = none) ∧
    (mode = Mode.fixed →
      ∀ x ∈ imageCallSources (processEvolution mode env eid pid run).trace,
        ∃ y, x = some y) ∧
    (mode = Mode.fixed →
      ∀ p ∈ imageCallPrompts (processEvolution mode env eid pid run).trace,
        p = STATIC_PROMPT) ∧
    (mode = Mode.fixed → NoFailures env →
      imageCallSources (processEvolution mode env eid pid run).trace
        = fixedSources env env.sourcePhoto run.total_iterations) := by
  obtain ⟨-, -, -, -, -, -, -, hac, hsg, hsf, hsp⟩ :=
    processEvolution_trace mode env eid pid run _ rfl
  refine ⟨hac, hsg, hsf, hsp, ?_⟩
  intro hm hnf
  subst hm
  have hp := hnf.1
  have hd := hnf.2.1
  show imageCallSources (processEvolution Mode.fixed env eid pid run).trace
    = fixedSources env env.sourcePhoto run.total_iterations
  unfold processEvolution
  rw [hp, hd]
  dsimp only
  rcases hR : runLoop Mode.fixed env eid run.total_iterations 1
      run.total_iterations
      { frames := [], row := updateStatus run Status.processing,
        prevImage := env.sourcePhoto, prevPrompt := none }
    with ⟨evE, lsE, rr⟩
  have hsrc := runLoop_fixed_sources env eid run.total_iterations hnf
    run.total_iterations 1
    { frames := [], row := updateStatus run Status.processing,
      prevImage := env.sourcePhoto, prevPrompt := none }
    (le_refl 1) (by simp [framesIters])
  rw [hR] at hsrc
  simp only at hsrc
  have hrr := runLoop_noFail Mode.fixed env eid run.total_iterations hnf
    run.total_iterations 1
    { frames := [], row := updateStatus run Status.processing,
      prevImage := env.sourcePhoto, prevPrompt := none }
    (le_refl 1) (by simp [framesIters])
  rw [hR] at hrr
  simp only at hrr
  subst hrr
  dsimp only
  simp only [imageCallSources, List.append_eq]
  rw [imageCallSources_append, hsrc]
  simp [imageCallSources]

theorem c6_image_calls_witness :
    NoFailures envOk ∧
    imageCallSources (processEvolution Mode.fixed envOk "w6" "p" (runN 2)).trace
      = fixedSources envOk envOk.sourcePhoto (runN 2).total_iterations := by
  have hnf : NoFailures envOk :=
    ⟨rfl, rfl, fun _ _ => rfl, fun _ _ => rfl, fun _ _ => rfl, fun _ _ => rfl,
     fun _ _ => rfl, fun _ => rfl⟩
  exact ⟨hnf, (c6_image_calls Mode.fixed envOk "w6" "p" (runN 2)).2.2.2.2 rfl hnf⟩

/-- C8 counterexample: in guided mode, with the image-provider call failing on
    iteration 1's first attempt, the instruction P1 derived during that failed
    attempt is passed as the previous-instruction input of the retry's
    derivation call (the first call was a cold start with no previous
    instruction), even though no frame recording P1 was ever persisted: the
    derived instruction is adopted at derivation time, not at step 6. -/
theorem c8_counterexample :
    Event.llmCall 7 1 none
      ∈ (processEvolution Mode.guided envImageFailOnce "e8" "p8" run1).trace ∧
    Event.llmCall 7 1 (some "P1")
      ∈ (processEvolution Mode.guided envImageFailOnce "e8" "p8" run1).trace ∧
    (∀ f, f ∈ (processEvolution Mode.guided envImageFailOnce "e8" "p8" run1).frames →
      f.prompt_used ≠ some "P1") := by
  decide

/-- C8 (amended): the generated image bytes are adopted as the current image
    only on attempt success (after the frame is persisted and the counter
    advanced); on any failed attempt the current image is unchanged.  The
    derived instruction, however, is adopted by the first attempt immediately
    upon successful derivation — before generation and persistence — so a
    failing first attempt can still replace previousPrompt with the freshly
    derived instruction; only the retry path defers instruction adoption to
    success. -/
theorem c8_adoption (mode : Mode) (env : Env) (eid : String) (total i a : Nat)
    (ls : LState) :
    (∀ ev ls' r, firstAttempt mode env eid total i ls = (ev, ls', r) →
      (r = none → ls'.row = updateProgress ls.row i ∧ hasFrame ls'.frames i = true) ∧
      (r ≠ none → ls'.prevImage = ls.prevImage) ∧
      (r ≠ none → mode = Mode.fixed → ls'.prevPrompt = ls.prevPrompt) ∧
      (r ≠ none → mode = Mode.guided →
        ls'.prevPrompt = ls.prevPrompt ∨
        (env.llmFail i 0 = none ∧
         ls'.prevPrompt = some (env.llmGen ls.prevImage i ls.prevPrompt)))) ∧
    (∀ ev ls' r, retryAttempt mode env eid i a ls = (ev, ls', r) →
      (r = none → ls'.row = updateProgress ls.row i ∧ hasFrame ls'.frames i = true) ∧
      (r ≠ none → ls'.prevImage = ls.prevImage ∧ ls'.prevPrompt = ls.prevPrompt)) := by
  constructor
  · intro ev ls' r h
    obtain ⟨-, -, -, D, E⟩ := firstAttempt_spec _ _ _ _ _ _ _ _ _ h
    refine ⟨?_, ?_, ?_, ?_⟩
    · intro hr
      obtain ⟨hrow, -, f, hf, -, happ⟩ := D hr
      refine ⟨hrow, ?_⟩
      rw [happ]
      exact hasFrame_append_self _ _ _ hf
    · intro hr
      exact (E hr).1
    · intro hr hm
      exact (E hr).2.1 hm
    · intro hr hm
      exact (E hr).2.2 hm
  · intro ev ls' r h
    obtain ⟨-, -, -, D, E⟩ := retryAttempt_spec _ _ _ _ _ _ _ _ _ h
    refine ⟨?_, ?_⟩
    · intro hr
      obtain ⟨hrow, -, f, hf, -, happ⟩ := D hr
      refine ⟨hrow, ?_⟩
      rw [happ]
      exact hasFrame_append_self _ _ _ hf
    · intro hr
      exact ⟨(E hr).2.1, (E hr).2.2⟩

theorem c8_adoption_witness :
    (firstAttempt Mode.guided envImageFailOnce "e8w" 1 1 lsW).2.2 = some "img down" ∧
    (firstAttempt Mode.guided envImageFailOnce "e8w" 1 1 lsW).2.1.prevImage
      = lsW.prevImage ∧
    (firstAttempt Mode.guided envImageFailOnce "e8w" 1 1 lsW).2.1.prevPrompt
      = some "P1" := by
  refine ⟨by decide, ?_, by decide⟩
  have happ := (c8_adoption Mode.guided envImageFailOnce "e8w" 1 1 1 lsW).1
    (firstAttempt Mode.guided envImageFailOnce "e8w" 1 1 lsW).1
    (firstAttempt Mode.guided envImageFailOnce "e8w" 1 1 lsW).2.1
    (firstAttempt Mode.guided envImageFailOnce "e8w" 1 1 lsW).2.2 rfl
  exact happ.2.1 (by decide)

end Morphorama
